import Mathlib

/-!
Shallow embedding of sheldon's locking and rendering pipeline: the `lock.rs`
module plus the lock/source glue of `lib.rs`.  External collaborators
(filesystem, git, HTTP download, the glob engine, the strict-mode handlebars
template engine) are modelled as oracle functions passed as parameters; the
control flow and data flow around them are translated from the source.  The
`?` operator of the source is rendered as an explicit match that propagates
the error.  Nondeterministic channel arrival order in `Config::lock` is
modelled by a schedule parameter constrained to be a permutation.
-/

/-- Unix paths, modelled as the underlying string (`PathBuf` wraps a string;
every path in this development is valid UTF-8, so the `to_str` conversions in
the source never fail in the model). -/
abbrev PathBuf := String

/-- Whether a path string is absolute, i.e. begins with `/` (the test
`PathBuf::push` performs before deciding to replace the receiver). -/
def headIsSlash (s : String) : Bool := s.data.head? = some '/'

/-- `PathBuf::push` / `PathBuf::join`: joining an absolute path replaces the
receiver, joining a non-empty relative string appends it after a `/`
separator, and joining the empty string adds at most a trailing separator,
which denotes the same location and is dropped in this model. -/
def pathJoin (p : PathBuf) (s : String) : PathBuf :=
  if headIsSlash s then s
  else if s = "" then p
  else if p = "" then s
  else p ++ "/" ++ s

/-- Error values (`anyhow::Error`): a leaf message produced by `s!` on an
`Option` or by `bail!`, a leaf produced inside an external collaborator, the
structured no-files-matched failure of `Plugin::lock` (in the source the
message "failed to find any files matching `<pattern>`"), or a context layer
added by `.ctx(..)` around a cause. -/
inductive Err where
  | plain (msg : String)
  | external (msg : String)
  | noFilesMatched (pattern : String)
  | context (msg : String) (cause : Err)
deriving DecidableEq, Repr

/-- How a Rust computation can fail: with an `Err` result, or with a panic
(`Option::unwrap` on `None`, indexing an `IndexMap` with a missing key). -/
inductive Fail where
  | err (e : Err)
  | panic (msg : String)
deriving DecidableEq, Repr

/-- `.ctx(msg)` applied to a `Result` inside code that can also panic: an
error is wrapped with a context message, a panic propagates unchanged. -/
def withCtx (msg : String) : Except Fail α → Except Fail α
  | .error (.err e) => .error (.err (.context msg e))
  | r => r

/-- `.ctx(msg)` applied to an oracle call that returns a plain `Err`. -/
def ctxE (msg : String) : Except Err α → Except Fail α
  | .error e => .error (.err (.context msg e))
  | .ok a => .ok a

/-- A string-keyed template-rendering context (the `hashmap!` data maps). -/
def Ctx := String → Option String

/-- The empty context. -/
def ctxEmpty : Ctx := fun _ => none

/-- `HashMap::insert`: later insertions overwrite earlier ones. -/
def ctxInsert (c : Ctx) (k v : String) : Ctx :=
  fun x => if x = k then some v else c x

/-- The per-plugin rendering context `{root, name, directory}` built by both
`Plugin::lock` and `LockedConfig::source`. -/
def pluginCtx (root name directory : String) : Ctx :=
  ctxInsert (ctxInsert (ctxInsert ctxEmpty "root" root) "name" name) "directory" directory

/-- The accessors of `url::Url` used by `lock.rs`: `host` is
`Url::host_str()`, `path` is `Url::path()`, `pathSegments` is
`Url::path_segments()` (`none` iff the URL is cannot-be-a-base), and `text`
is the `Display` rendering used in error messages. -/
structure Url where
  host : Option String
  path : String
  pathSegments : Option (List String)
  text : String
deriving DecidableEq, Repr

/-- `config::GitReference`: a symbolic pin of a git source. -/
inductive GitReference where
  | branch (s : String)
  | tag (s : String)
  | revision (s : String)
deriving DecidableEq, Repr

/-- `config::Source`: where a plugin's files come from. -/
inductive Source where
  | git (url : Url) (reference : Option GitReference)
  | remote (url : Url)
  | local (directory : PathBuf)
deriving DecidableEq, Repr

/-- `settings::Settings` (declared in settings.rs; fields as constructed by
the tests in lock.rs and as the spec's data model lists them: the five
persisted fields plus the `reinstall` and `relock` flags). -/
structure Settings where
  version : String
  home : PathBuf
  root : PathBuf
  config_file : PathBuf
  lock_file : PathBuf
  reinstall : Bool
  relock : Bool
deriving DecidableEq, Repr

/-- `config::Template`: a named fragment with its `each` flag (fields as used
by `lock.rs`: `template.value` and `template.each`). -/
structure Template where
  value : String
  each : Bool
deriving DecidableEq, Repr

/-- `config::Plugin`: a manifest entry (fields as constructed by the lock.rs
tests: `name`, `source`, optional `uses` patterns, optional `apply` list). -/
structure Plugin where
  name : String
  source : Source
  uses : Option (List String)
  apply : Option (List String)
deriving DecidableEq, Repr

/-- `config::Config`: the parsed manifest consumed by `Config::lock`, with
the fields that method uses.  `matchesList` is the global `matches` cascade
(`matches` is a reserved word in Lean); the ordered `IndexMap` of templates
is modelled as an association list in insertion order. -/
structure Config where
  matchesList : List String
  apply : List String
  templates : List (String × Template)
  plugins : List Plugin
deriving DecidableEq, Repr

/-- `lock::LockedSource`: the clone or download directory plus, for `Remote`
sources only, the downloaded filename. -/
structure LockedSource where
  directory : PathBuf
  filename : Option PathBuf
deriving DecidableEq, Repr

/-- `lock::LockedPlugin`. -/
structure LockedPlugin where
  name : String
  directory : PathBuf
  filenames : List PathBuf
  apply : List String
deriving DecidableEq, Repr

/-- `lock::LockedSettings`: the frozen settings snapshot. -/
structure LockedSettings where
  version : String
  home : PathBuf
  root : PathBuf
  config_file : PathBuf
  lock_file : PathBuf
deriving DecidableEq, Repr

/-- `lock::LockedConfig`: the durable output.  The ordered `IndexMap` of
templates is an association list in insertion order. -/
structure LockedConfig where
  settings : LockedSettings
  templates : List (String × Template)
  plugins : List LockedPlugin
deriving DecidableEq, Repr

/-- The external collaborators of the locking pipeline, as oracles:
filesystem tests and writes, the git library (clone-or-open, reference pin
and hard reset collapsed into one install step, since on success it only
ever leaves the directory unchanged), the HTTP download (fetch plus stream
to file), strict-mode `render_template`, and glob expansion.  The glob
oracle returns the outer parse result and the per-path read results exactly
as the `glob::Paths` iterator yields them. -/
structure Oracles where
  fileExists : PathBuf → Bool
  createDirAll : PathBuf → Except Err Unit
  downloadTo : Url → PathBuf → Except Err Unit
  gitInstall : PathBuf → Url → Option GitReference → Except Err Unit
  isDirMeta : PathBuf → Except Err Bool
  renderTemplate : String → Ctx → Except Err String
  glob : String → Except Err (List (Except Err PathBuf))

/-- The default clone directory for `Git` sources. -/
def CLONE_DIRECTORY : String := "repositories"

/-- The default download directory for `Remote` sources. -/
def DOWNLOAD_DIRECTORY : String := "downloads"

/-- The maximum number of worker threads (`MAX_THREADS`). -/
def MAX_THREADS : Nat := 8

/-- Modelled from the spec: `Settings::expand_tilde` (settings.rs is not
under src/) rewrites a leading home shortcut against `Settings.home`. -/
def Settings.expand_tilde (s : Settings) (d : PathBuf) : PathBuf :=
  match d.data with
  | '~' :: rest => pathJoin s.home (String.mk (rest.dropWhile fun c => c = '/'))
  | _ => d

/-- The `Display` impl for `Source`: the URL for git and remote sources,
the directory for local ones. -/
def sourceName : Source → String
  | .git url _ => url.text
  | .remote url => url.text
  | .local d => d

/-- `str::trim_start_matches('/')`: drop every leading slash. -/
def trimStartSlashes (s : String) : String :=
  String.mk (s.data.dropWhile fun c => c = '/')

/-- `<[T]>::split_last`: the last element and the rest, `none` on `[]`. -/
def splitLast? : List α → Option (α × List α)
  | [] => none
  | [a] => some (a, [])
  | a :: b :: rest =>
      match splitLast? (b :: rest) with
      | some (x, init) => some (x, a :: init)
      | none => none

/-- `Source::lock_git`: clone or open the repository, pin the optional
reference and hard-reset to it (one oracle step, see `Oracles.gitInstall`),
and return the directory with no filename. -/
def Source.lock_git (O : Oracles) (directory : PathBuf) (url : Url)
    (reference : Option GitReference) : Except Fail LockedSource :=
  match O.gitInstall directory url reference with
  | .error e => .error (.err e)
  | .ok _ => .ok ⟨directory, none⟩

/-- `Source::lock_remote`: if the filename already exists the download is
skipped; otherwise the directory is created and the URL body is streamed to
the file.  Either way the locked source carries the directory and the
filename. -/
def Source.lock_remote (O : Oracles) (directory filename : PathBuf) (url : Url) :
    Except Fail LockedSource :=
  if O.fileExists filename then .ok ⟨directory, some filename⟩
  else
    match ctxE ("failed to create directory " ++ directory) (O.createDirAll directory) with
    | .error e => .error e
    | .ok _ =>
        match ctxE ("failed to download from " ++ url.text) (O.downloadTo url filename) with
        | .error e => .error e
        | .ok _ => .ok ⟨directory, some filename⟩

/-- `Source::lock_local`: expand a leading tilde, then require the directory
to exist and be a directory. -/
def Source.lock_local (O : Oracles) (settings : Settings) (directory : PathBuf) :
    Except Fail LockedSource :=
  let directory := settings.expand_tilde directory
  match O.isDirMeta directory with
  | .error e => .error (.err (.context ("failed to find directory " ++ directory) e))
  | .ok true => .ok ⟨directory, none⟩
  | .ok false => .error (.err (.plain (directory ++ " is not a directory")))

/-- `Source::lock`: compute the install location per variant and dispatch.
For `Git`: `<root>/repositories/<host>/<url path stripped of leading '/'>`.
For `Remote`: `<root>/downloads/<host>/<all but the last path segment>`, the
filename being the last segment, or `index` when that segment is empty
(`split_last` on the segment list is followed by `unwrap`, hence the panic
case). -/
def Source.lock (O : Oracles) (settings : Settings) : Source → Except Fail LockedSource
  | .git url reference =>
      match url.host with
      | none => .error (.err (.plain ("URL " ++ url.text ++ " has no host")))
      | some host =>
          let directory :=
            pathJoin (pathJoin (pathJoin settings.root CLONE_DIRECTORY) host)
              (trimStartSlashes url.path)
          Source.lock_git O directory url reference
  | .remote url =>
      match url.host with
      | none => .error (.err (.plain ("URL " ++ url.text ++ " has no host")))
      | some host =>
          let directory := pathJoin (pathJoin settings.root DOWNLOAD_DIRECTORY) host
          match url.pathSegments with
          | none => .error (.err (.plain ("URL " ++ url.text ++ " is cannot-be-a-base")))
          | some segments =>
              match splitLast? segments with
              | none => .error (.panic "called Option::unwrap on a None value")
              | some (last, rest) =>
                  let base := if last ≠ "" then last else "index"
                  let directory := rest.foldl pathJoin directory
                  let filename := pathJoin directory base
                  Source.lock_remote O directory filename url
  | .local directory => Source.lock_local O settings directory

/-- The path-consuming loop of `Plugin::match_globs`: push every successfully
read path onto `filenames`, recording that at least one path matched; the
first read error aborts with the pattern-naming context. -/
def Plugin.matchGlobsGo (pattern : PathBuf) :
    List (Except Err PathBuf) → List PathBuf → Bool → Except Fail (Bool × List PathBuf)
  | [], acc, matched => .ok (matched, acc)
  | .error e :: _, _, _ =>
      .error (.err (.context ("failed to read path matched by pattern " ++ pattern) e))
  | .ok p :: rest, acc, _ => Plugin.matchGlobsGo pattern rest (acc ++ [p]) true

/-- `Plugin::match_globs`: expand the pattern through the glob engine and
append every match to `filenames`, returning whether anything matched. -/
def Plugin.match_globs (O : Oracles) (pattern : PathBuf) (filenames : List PathBuf) :
    Except Fail (Bool × List PathBuf) :=
  match O.glob pattern with
  | .error e => .error (.err (.context ("failed to parse glob pattern " ++ pattern) e))
  | .ok paths => Plugin.matchGlobsGo pattern paths filenames false

/-- The `uses` loop of `Plugin::lock`: for each entry in order, render it as
a template, join with the source directory, glob, and append every match;
an entry that matches nothing aborts with the no-files-matched failure. -/
def Plugin.usesLoop (O : Oracles) (data : Ctx) (directory : PathBuf) :
    List String → List PathBuf → Except Fail (List PathBuf)
  | [], acc => .ok acc
  | u :: rest, acc =>
      match ctxE ("failed to render template " ++ u) (O.renderTemplate u data) with
      | .error e => .error e
      | .ok rendered =>
          match Plugin.match_globs O (pathJoin directory rendered) acc with
          | .error e => .error e
          | .ok (matched, acc') =>
              if matched then Plugin.usesLoop O data directory rest acc'
              else .error (.err (.noFilesMatched rendered))

/-- The `matches` loop of `Plugin::lock`: the same rendering and globbing,
but the loop `break`s at the first pattern that matched at least one file,
and running out of patterns is not an error. -/
def Plugin.matchesLoop (O : Oracles) (data : Ctx) (directory : PathBuf) :
    List String → List PathBuf → Except Fail (List PathBuf)
  | [], acc => .ok acc
  | g :: rest, acc =>
      match ctxE ("failed to render template " ++ g) (O.renderTemplate g data) with
      | .error e => .error e
      | .ok rendered =>
          match Plugin.match_globs O (pathJoin directory rendered) acc with
          | .error e => .error e
          | .ok (matched, acc') =>
              if matched then .ok acc'
              else Plugin.matchesLoop O data directory rest acc'

/-- `Plugin::lock`.  A `Remote` plugin takes the single downloaded file from
the locked source (`filename.unwrap()`, hence the panic case) and never
consults `uses` or `matches`.  Otherwise the `{root, name, directory}`
context is built and either the `uses` entries or the global `matches`
cascade select the filenames.  The plugin's `apply` list defaults to the
global one. -/
def Plugin.lock (O : Oracles) (settings : Settings) (self : Plugin)
    (source : LockedSource) (matchesList apply : List String) :
    Except Fail LockedPlugin :=
  match self.source with
  | .remote _ =>
      match source.filename with
      | none => .error (.panic "called Option::unwrap on a None value")
      | some f =>
          .ok { name := self.name, directory := source.directory,
                filenames := [f], apply := self.apply.getD apply }
  | _ =>
      let directory := source.directory
      let data := pluginCtx settings.root self.name directory
      match self.uses with
      | some uses =>
          match Plugin.usesLoop O data directory uses [] with
          | .error e => .error e
          | .ok filenames =>
              .ok { name := self.name, directory := directory, filenames := filenames,
                    apply := self.apply.getD apply }
      | none =>
          match Plugin.matchesLoop O data directory matchesList [] with
          | .error e => .error e
          | .ok filenames =>
              .ok { name := self.name, directory := directory, filenames := filenames,
                    apply := self.apply.getD apply }

/-- `Settings::lock`: freeze the five persisted fields. -/
def Settings.lock (s : Settings) : LockedSettings :=
  { version := s.version, home := s.home, root := s.root,
    config_file := s.config_file, lock_file := s.lock_file }

/-- The source-keyed grouping built by `Config::lock`: an insertion-ordered
`IndexMap` from `Source` to the `(manifest index, plugin)` pairs sharing it,
modelled as an association list. -/
abbrev GroupList := List (Source × List (Nat × Plugin))

/-- One step of building the grouping: `map.entry(source).or_insert(vec)
.push((index, plugin))` appends to an existing bucket or appends a fresh
key at the end. -/
def groupInsert : GroupList → Source → (Nat × Plugin) → GroupList
  | [], src, e => [(src, [e])]
  | (s, ps) :: rest, src, e =>
      if s = src then (s, ps ++ [e]) :: rest
      else (s, ps) :: groupInsert rest src e

/-- The whole grouping loop over the enumerated plugins. -/
def groupPlugins (plugins : List Plugin) : GroupList :=
  plugins.enum.foldl (fun m ie => groupInsert m ie.2.source ie) []

/-- The per-plugin half of a worker task: lock each plugin of the group
against a clone of the locked source, tagging errors with the plugin name
and keeping the manifest index alongside the result. -/
def lockGroupPlugins (O : Oracles) (settings : Settings)
    (matchesList apply : List String) (locked : LockedSource) :
    List (Nat × Plugin) → Except Fail (List (Nat × LockedPlugin))
  | [] => .ok []
  | (i, p) :: rest =>
      match withCtx ("failed to install plugin " ++ p.name)
          (Plugin.lock O settings p locked matchesList apply) with
      | .error e => .error e
      | .ok lp =>
          match lockGroupPlugins O settings matchesList apply locked rest with
          | .error e => .error e
          | .ok more => .ok ((i, lp) :: more)

/-- A whole worker task for one source group: install the source once, then
lock every plugin of the group; the first failure is the message sent for
the whole group. -/
def lockGroup (O : Oracles) (settings : Settings)
    (matchesList apply : List String) (source : Source)
    (plugins : List (Nat × Plugin)) : Except Fail (List (Nat × LockedPlugin)) :=
  match withCtx ("failed to install source " ++ sourceName source)
      (Source.lock O settings source) with
  | .error e => .error e
  | .ok locked => lockGroupPlugins O settings matchesList apply locked plugins

/-- A message sent through the worker channel. -/
abbrev ChannelMsg := Except Fail (List (Nat × LockedPlugin))

/-- The arrival order of the channel: a reordering of the per-group results.
Theorems constrain it to be a permutation, which is exactly what an mpsc
channel fed by a joined pool of workers guarantees. -/
abbrev Schedule := List ChannelMsg → List ChannelMsg

/-- The messages sitting in the channel once `scoped.join_all()` returns:
one result per source group, in arrival order. -/
def Config.channelMessages (O : Oracles) (perm : Schedule) (settings : Settings)
    (cfg : Config) : List ChannelMsg :=
  perm ((groupPlugins cfg.plugins).map fun g =>
    lockGroup O settings cfg.matchesList cfg.apply g.1 g.2)

/-- `rx.iter().take(count).collect::<Result<Vec<_>>>()`: messages are read
off the channel one at a time and the first error message stops the drain
and becomes the overall result.  The first component counts how many
messages were actually drained. -/
def drainCollect : List (Except Fail α) → Nat × Except Fail (List α)
  | [] => (0, .ok [])
  | .error e :: _ => (1, .error e)
  | .ok a :: rest =>
      let r := drainCollect rest
      (r.1 + 1, r.2.map fun as => a :: as)

/-- The sort key order of `sorted_by_key(|(index, _)| *index)`. -/
def idxLe (a b : Nat × LockedPlugin) : Prop := a.1 ≤ b.1

instance : DecidableRel idxLe := fun a b => Nat.decLe a.1 b.1

instance : IsTotal (Nat × LockedPlugin) idxLe := ⟨fun a b => Nat.le_total a.1 b.1⟩

instance : IsTrans (Nat × LockedPlugin) idxLe := ⟨fun _ _ _ h h' => Nat.le_trans h h'⟩

/-- `itertools::sorted_by_key` on the manifest index: a stable sort. -/
def sortByIdx (l : List (Nat × LockedPlugin)) : List (Nat × LockedPlugin) :=
  l.insertionSort idxLe

/-- `Config::lock`: group the plugins by source, run one worker per group
(their results arriving in schedule order), drain the channel and fail on
the first error message, otherwise flatten, re-sort ascending by manifest
index, drop the indices and assemble the locked configuration with the
frozen settings and the manifest's templates. -/
def Config.lock (O : Oracles) (perm : Schedule) (settings : Settings)
    (cfg : Config) : Except Fail LockedConfig :=
  let count := (groupPlugins cfg.plugins).length
  let pluginsRes : Except Fail (List LockedPlugin) :=
    if count = 0 then .ok []
    else
      match (drainCollect ((Config.channelMessages O perm settings cfg).take count)).2 with
      | .error e => .error e
      | .ok lists => .ok ((sortByIdx lists.flatten).map fun x => x.2)
  match pluginsRes with
  | .error e => .error e
  | .ok plugins =>
      .ok { settings := settings.lock, templates := cfg.templates, plugins := plugins }

/-- The template-compilation loop of `LockedConfig::source`:
`register_template_string` for every named template in map order. -/
def compileAll (C : String → String → Except Err Unit) :
    List (String × Template) → Except Fail Unit
  | [] => .ok ()
  | (name, t) :: rest =>
      match C name t.value with
      | .error e => .error (.err (.context ("failed to compile template " ++ name) e))
      | .ok _ => compileAll C rest

/-- `IndexMap` lookup, as used by `self.templates[name]`. -/
def lookupTemplate (templates : List (String × Template)) (name : String) :
    Option Template :=
  templates.lookup name

/-- The inner `each` loop of `LockedConfig::source`: the mutable data map has
`filename` inserted (overwriting any previous insertion), the named compiled
template is rendered against it, and the fragment plus a newline are pushed
onto the script accumulator. -/
def sourceEachLoop (R : String → Ctx → Except Err String) (name : String)
    (data : Ctx) (script : String) : List PathBuf → Except Fail String
  | [] => .ok script
  | f :: rest =>
      let data' := ctxInsert data "filename" f
      match R name data' with
      | .error e => .error (.err (.context ("failed to render template " ++ name) e))
      | .ok frag => sourceEachLoop R name data' (script ++ frag ++ "\n") rest

/-- The per-plugin apply loop of `LockedConfig::source`: for each name in the
plugin's apply list, build the base context, index the templates map (a
missing key panics, as `IndexMap`'s `Index` impl does), then render either
once per filename (`each`) or once with the base context, each fragment
followed by a single newline. -/
def sourceApplyLoop (R : String → Ctx → Except Err String)
    (templates : List (String × Template)) (root : String)
    (plugin : LockedPlugin) (script : String) : List String → Except Fail String
  | [] => .ok script
  | name :: rest =>
      let data := pluginCtx root plugin.name plugin.directory
      match lookupTemplate templates name with
      | none => .error (.panic ("IndexMap: key not found: " ++ name))
      | some t =>
          if t.each then
            match sourceEachLoop R name data script plugin.filenames with
            | .error e => .error e
            | .ok script' => sourceApplyLoop R templates root plugin script' rest
          else
            match R name data with
            | .error e =>
                .error (.err (.context ("failed to render template " ++ name) e))
            | .ok frag =>
                sourceApplyLoop R templates root plugin (script ++ frag ++ "\n") rest

/-- The outer plugin loop of `LockedConfig::source`. -/
def sourcePluginsLoop (R : String → Ctx → Except Err String)
    (templates : List (String × Template)) (root : String) (script : String) :
    List LockedPlugin → Except Fail String
  | [] => .ok script
  | p :: rest =>
      match sourceApplyLoop R templates root p script p.apply with
      | .error e => .error e
      | .ok script' => sourcePluginsLoop R templates root script' rest

/-- `LockedConfig::source`: compile every named template into the strict-mode
engine (`C` is `register_template_string`, `R` is the registry's `render`),
then walk the locked plugins in order and concatenate the rendered
fragments. -/
def LockedConfig.source (C : String → String → Except Err Unit)
    (R : String → Ctx → Except Err String) (l : LockedConfig) :
    Except Fail String :=
  match compileAll C l.templates with
  | .error e => .error e
  | .ok _ => sourcePluginsLoop R l.templates l.settings.root "" l.plugins

/-- The `Settings == LockedSettings` comparison (`impl PartialEq` in
lock.rs): exactly the five persisted fields, nothing else. -/
def Settings.eqLocked (s : Settings) (other : LockedSettings) : Bool :=
  s.version == other.version
    && s.home == other.home
    && s.root == other.root
    && s.config_file == other.config_file
    && s.lock_file == other.lock_file

/-- Modelled from the spec: `LockedConfig::verify` (its body is not under
src/; lib.rs calls it) decides reuse by field-equality of the stored
`LockedSettings` with the current `Settings`, i.e. the `PartialEq` impl of
lock.rs. -/
def LockedConfig.verify (l : LockedConfig) (settings : Settings) : Bool :=
  Settings.eqLocked settings l.settings

/-- Modelled from the spec: `PathExt::newer_than` (util.rs is not under
src/) compares modification times; the manifest is newer than the lock file
when its mtime is strictly greater. -/
def newerThan (cfgMtime lockMtime : Nat) : Bool :=
  lockMtime < cfgMtime

/-- The lock-selection step of `Sheldon::source` (lib.rs): on a forced
relock or a manifest newer than the lock file, re-lock; otherwise parse the
lock file and reuse it only if it verifies, re-locking on a parse failure or
a verification failure.  The boolean is `to_path`: whether the (re)computed
lock must be written back.  `parseResult` stands for
`LockedConfig::from_path(lock_path)` and `relockResult` for
`Self::locked(ctx)`. -/
def Sheldon.sourceLocked (relock : Bool) (cfgMtime lockMtime : Nat)
    (parseResult relockResult : Except Fail LockedConfig) (settings : Settings) :
    Except Fail (LockedConfig × Bool) :=
  if relock || newerThan cfgMtime lockMtime then
    relockResult.map fun l => (l, true)
  else
    match parseResult with
    | .ok locked =>
        if locked.verify settings then .ok (locked, false)
        else relockResult.map fun l => (l, true)
    | .error _ => relockResult.map fun l => (l, true)

/-- A TOML document, at the value level.  `LockedConfig::to_path` serializes
through `toml::to_string` and `from_path` parses with `toml::from_str`; the
text layer of the external toml crate (value tree to text and back) is
modelled as the identity on value trees, so the store is the serde-derived
mapping between `LockedConfig` and this tree. -/
inductive Toml where
  | str (s : String)
  | bool (b : Bool)
  | arr (xs : List Toml)
  | table (kvs : List (String × Toml))

/-- Serde encoding of a `Template` (declared in config.rs; modelled from the
spec's data model: textual body and the `each` flag). -/
def Template.encode (t : Template) : Toml :=
  .table [("value", .str t.value), ("each", .bool t.each)]

/-- Serde encoding of a `LockedPlugin`: the four derived fields in
declaration order, paths as strings. -/
def LockedPlugin.encode (p : LockedPlugin) : Toml :=
  .table [("name", .str p.name), ("directory", .str p.directory),
          ("filenames", .arr (p.filenames.map .str)),
          ("apply", .arr (p.apply.map .str))]

/-- Serde encoding of a `LockedConfig`: the `#[serde(flatten)]` settings
fields inlined at top level, then the ordered templates table and the
plugins array.  There is no `errors` key: the in-memory errors list that
lib.rs reads is transient and never serialized. -/
def LockedConfig.encode (l : LockedConfig) : Toml :=
  .table [("version", .str l.settings.version), ("home", .str l.settings.home),
          ("root", .str l.settings.root), ("config_file", .str l.settings.config_file),
          ("lock_file", .str l.settings.lock_file),
          ("templates", .table (l.templates.map fun nt => (nt.1, nt.2.encode))),
          ("plugins", .arr (l.plugins.map LockedPlugin.encode))]

/-- Key lookup in a decoded TOML table (serde reads fields by name). -/
def tomlGet (kvs : List (String × Toml)) (k : String) : Except Fail Toml :=
  match kvs.lookup k with
  | some v => .ok v
  | none => .error (.err (.plain ("failed to deserialize locked config: missing field " ++ k)))

/-- Decode a TOML string value. -/
def Toml.asStr : Toml → Except Fail String
  | .str s => .ok s
  | _ => .error (.err (.plain "failed to deserialize locked config: expected a string"))

/-- Decode a TOML boolean value. -/
def Toml.asBool : Toml → Except Fail Bool
  | .bool b => .ok b
  | _ => .error (.err (.plain "failed to deserialize locked config: expected a boolean"))

/-- Decode a list of TOML values elementwise. -/
def decodeList (f : Toml → Except Fail α) : List Toml → Except Fail (List α)
  | [] => .ok []
  | x :: rest =>
      match f x with
      | .error e => .error e
      | .ok a =>
          match decodeList f rest with
          | .error e => .error e
          | .ok as => .ok (a :: as)

/-- Decode a TOML array of strings. -/
def Toml.asStrArr : Toml → Except Fail (List String)
  | .arr xs => decodeList Toml.asStr xs
  | _ => .error (.err (.plain "failed to deserialize locked config: expected an array"))

/-- Serde decoding of a `Template`. -/
def Template.decode (t : Toml) : Except Fail Template :=
  match t with
  | .table kvs =>
      match tomlGet kvs "value" with
      | .error e => .error e
      | .ok v =>
          match v.asStr with
          | .error e => .error e
          | .ok value =>
              match tomlGet kvs "each" with
              | .error e => .error e
              | .ok b =>
                  match b.asBool with
                  | .error e => .error e
                  | .ok each => .ok { value := value, each := each }
  | _ => .error (.err (.plain "failed to deserialize locked config: expected a table"))

/-- Serde decoding of a `LockedPlugin`. -/
def LockedPlugin.decode (t : Toml) : Except Fail LockedPlugin :=
  match t with
  | .table kvs =>
      match tomlGet kvs "name" with
      | .error e => .error e
      | .ok v0 =>
          match v0.asStr with
          | .error e => .error e
          | .ok name =>
              match tomlGet kvs "directory" with
              | .error e => .error e
              | .ok v1 =>
                  match v1.asStr with
                  | .error e => .error e
                  | .ok directory =>
                      match tomlGet kvs "filenames" with
                      | .error e => .error e
                      | .ok v2 =>
                          match v2.asStrArr with
                          | .error e => .error e
                          | .ok filenames =>
                              match tomlGet kvs "apply" with
                              | .error e => .error e
                              | .ok v3 =>
                                  match v3.asStrArr with
                                  | .error e => .error e
                                  | .ok apply =>
                                      .ok { name := name, directory := directory,
                                            filenames := filenames, apply := apply }
  | _ => .error (.err (.plain "failed to deserialize locked config: expected a table"))

/-- Serde decoding of the ordered templates table, in key order. -/
def decodeTemplates : List (String × Toml) → Except Fail (List (String × Template))
  | [] => .ok []
  | (name, v) :: rest =>
      match Template.decode v with
      | .error e => .error e
      | .ok t =>
          match decodeTemplates rest with
          | .error e => .error e
          | .ok ts => .ok ((name, t) :: ts)

/-- The templates and plugins halves of decoding a `LockedConfig`. -/
def decodeRest (kvs : List (String × Toml))
    (version home root config_file lock_file : String) :
    Except Fail LockedConfig :=
  match tomlGet kvs "templates" with
  | .error e => .error e
  | .ok vt =>
      match vt with
      | .table tkvs =>
          match decodeTemplates tkvs with
          | .error e => .error e
          | .ok templates =>
              match tomlGet kvs "plugins" with
              | .error e => .error e
              | .ok vp =>
                  match vp with
                  | .arr xs =>
                      match decodeList LockedPlugin.decode xs with
                      | .error e => .error e
                      | .ok plugins =>
                          .ok { settings := { version := version, home := home,
                                              root := root, config_file := config_file,
                                              lock_file := lock_file },
                                templates := templates, plugins := plugins }
                  | _ => .error (.err (.plain
                      "failed to deserialize locked config: expected an array"))
      | _ => .error (.err (.plain
          "failed to deserialize locked config: expected a table"))

/-- Serde decoding of a `LockedConfig` from a TOML value tree. -/
def LockedConfig.decode (t : Toml) : Except Fail LockedConfig :=
  match t with
  | .table kvs =>
      match tomlGet kvs "version" with
      | .error e => .error e
      | .ok v0 =>
          match v0.asStr with
          | .error e => .error e
          | .ok version =>
              match tomlGet kvs "home" with
              | .error e => .error e
              | .ok v1 =>
                  match v1.asStr with
                  | .error e => .error e
                  | .ok home =>
                      match tomlGet kvs "root" with
                      | .error e => .error e
                      | .ok v2 =>
                          match v2.asStr with
                          | .error e => .error e
                          | .ok root =>
                              match tomlGet kvs "config_file" with
                              | .error e => .error e
                              | .ok v3 =>
                                  match v3.asStr with
                                  | .error e => .error e
                                  | .ok config_file =>
                                      match tomlGet kvs "lock_file" with
                                      | .error e => .error e
                                      | .ok v4 =>
                                          match v4.asStr with
                                          | .error e => .error e
                                          | .ok lock_file =>
                                              decodeRest kvs version home root
                                                config_file lock_file
  | _ => .error (.err (.plain "failed to deserialize locked config: expected a table"))

/-- The top-level keys of a serialized document. -/
def Toml.topKeys : Toml → List String
  | .table kvs => kvs.map fun kv => kv.1
  | _ => []

/-- The full expansion of one glob pattern: the parse result and every
per-path read, with the same context messages as `Plugin::match_globs`. -/
def globAllGo (pattern : PathBuf) : List (Except Err PathBuf) → Except Fail (List PathBuf)
  | [] => .ok []
  | .error e :: _ =>
      .error (.err (.context ("failed to read path matched by pattern " ++ pattern) e))
  | .ok p :: rest => (globAllGo pattern rest).map fun ps => p :: ps

/-- The list of files one glob pattern expands to. -/
def globAll (O : Oracles) (pattern : PathBuf) : Except Fail (List PathBuf) :=
  match O.glob pattern with
  | .error e => .error (.err (.context ("failed to parse glob pattern " ++ pattern) e))
  | .ok paths => globAllGo pattern paths

/-- The files contributed by a single selection entry: render it against the
context, join with the source directory, expand. -/
def entryFiles (O : Oracles) (data : Ctx) (directory : PathBuf) (u : String) :
    Except Fail (List PathBuf) :=
  match ctxE ("failed to render template " ++ u) (O.renderTemplate u data) with
  | .error e => .error e
  | .ok rendered => globAll O (pathJoin directory rendered)

/-- The `uses` selection as the spec words it: for each entry in order,
render, join with the source directory, glob, and append every match in glob
order; an entry with zero matches fails with no-files-matched naming the
rendered pattern. -/
def usesSpec (O : Oracles) (data : Ctx) (directory : PathBuf) :
    List String → Except Fail (List PathBuf)
  | [] => .ok []
  | u :: rest =>
      match ctxE ("failed to render template " ++ u) (O.renderTemplate u data) with
      | .error e => .error e
      | .ok rendered =>
          match globAll O (pathJoin directory rendered) with
          | .error e => .error e
          | .ok files =>
              if files.isEmpty then .error (.err (.noFilesMatched rendered))
              else (usesSpec O data directory rest).map fun more => files ++ more

/-- The global `matches` cascade as the spec words it: iterate the patterns
in order and stop at the first one that matches at least one file; absence
of any match across all patterns yields the empty list. -/
def matchesCascadeSpec (O : Oracles) (data : Ctx) (directory : PathBuf) :
    List String → Except Fail (List PathBuf)
  | [] => .ok []
  | g :: rest =>
      match ctxE ("failed to render template " ++ g) (O.renderTemplate g data) with
      | .error e => .error e
      | .ok rendered =>
          match globAll O (pathJoin directory rendered) with
          | .error e => .error e
          | .ok files =>
              if files.isEmpty then matchesCascadeSpec O data directory rest
              else .ok files

/-- Every fragment followed by a single newline, concatenated. -/
def concatFrags : List String → String
  | [] => ""
  | s :: rest => s ++ "\n" ++ concatFrags rest

/-- The renders of an `each` template, one per filename, against the base
context augmented with that filename. -/
def renderEachFragments (R : String → Ctx → Except Err String) (name : String)
    (base : Ctx) : List PathBuf → Except Fail (List String)
  | [] => .ok []
  | f :: rest =>
      match R name (ctxInsert base "filename" f) with
      | .error e => .error (.err (.context ("failed to render template " ++ name) e))
      | .ok frag => (renderEachFragments R name base rest).map fun frags => frag :: frags

/-- The fragments one apply-list name contributes for one plugin, as the
spec words it: with `each`, one render per filename in file-list order, the
base context augmented with `filename`; otherwise a single render with the
base context. -/
def renderFragments (R : String → Ctx → Except Err String)
    (templates : List (String × Template)) (root : String) (plugin : LockedPlugin)
    (name : String) : Except Fail (List String) :=
  let base := pluginCtx root plugin.name plugin.directory
  match lookupTemplate templates name with
  | none => .error (.panic ("IndexMap: key not found: " ++ name))
  | some t =>
      if t.each then
        renderEachFragments R name base plugin.filenames
      else
        match R name base with
        | .error e => .error (.err (.context ("failed to render template " ++ name) e))
        | .ok frag => .ok [frag]

/-- The fragments of one plugin: its apply names in order. -/
def pluginFragments (R : String → Ctx → Except Err String)
    (templates : List (String × Template)) (root : String) (plugin : LockedPlugin) :
    List String → Except Fail (List String)
  | [] => .ok []
  | name :: rest =>
      match renderFragments R templates root plugin name with
      | .error e => .error e
      | .ok frags =>
          (pluginFragments R templates root plugin rest).map fun more => frags ++ more

/-- The fragment lists of all plugins, concatenated in manifest order. -/
def sourceSpecPlugins (R : String → Ctx → Except Err String)
    (templates : List (String × Template)) (root : String) :
    List LockedPlugin → Except Fail (List String)
  | [] => .ok []
  | p :: rest =>
      match pluginFragments R templates root p p.apply with
      | .error e => .error e
      | .ok frags =>
          (sourceSpecPlugins R templates root rest).map fun more => frags ++ more

/-- The whole script as the spec words it: compile every template, then for
each locked plugin in order and each apply name in order append every
rendered fragment followed by a single newline. -/
def sourceSpec (C : String → String → Except Err Unit)
    (R : String → Ctx → Except Err String) (l : LockedConfig) :
    Except Fail String :=
  match compileAll C l.templates with
  | .error e => .error e
  | .ok _ => (sourceSpecPlugins R l.templates l.settings.root l.plugins).map concatFrags

/-- The first error message in channel arrival order. -/
def firstError : List (Except Fail α) → Option Fail
  | [] => none
  | .error e :: _ => some e
  | .ok _ :: rest => firstError rest

/-- One path component per remaining URL segment, each preceded by a
separator (the spec's "all but last path segment" suffix). -/
def slashConcat : List String → String
  | [] => ""
  | s :: rest => "/" ++ s ++ slashConcat rest

/-! ### Helper lemmas about paths and strings -/

theorem append_ne_empty_left {p q : String} (h : p ≠ "") : p ++ q ≠ "" := by
  intro hc
  have hd := congrArg String.data hc
  simp [String.data_append] at hd
  exact h (String.ext hd.1)

theorem pathJoin_rel {p : PathBuf} {s : String} (h1 : headIsSlash s = false)
    (h2 : s ≠ "") (h3 : p ≠ "") : pathJoin p s = p ++ "/" ++ s := by
  simp [pathJoin, h1, h2, h3]

theorem foldl_pathJoin_slashConcat :
    ∀ (rest : List String) (p : PathBuf), p ≠ "" →
      (∀ r ∈ rest, headIsSlash r = false ∧ r ≠ "") →
      rest.foldl pathJoin p = p ++ slashConcat rest
  | [], p, _, _ => by simp [slashConcat]
  | r :: rs, p, hp, hall => by
      have hr := hall r (List.mem_cons_self r rs)
      rw [List.foldl_cons, pathJoin_rel hr.1 hr.2 hp,
        foldl_pathJoin_slashConcat rs _
          (append_ne_empty_left (append_ne_empty_left hp))
          (fun x hx => hall x (List.mem_cons_of_mem _ hx))]
      simp [slashConcat, String.append_assoc]

/-- Any successful `Source::lock_remote` returns exactly the directory and
filename it was given. -/
theorem lock_remote_ok_shape {O : Oracles} {d f : PathBuf} {url : Url}
    {ls : LockedSource} (h : Source.lock_remote O d f url = .ok ls) :
    ls = ⟨d, some f⟩ := by
  unfold Source.lock_remote at h
  by_cases hex : O.fileExists f = true
  · rw [if_pos hex] at h
    simp at h
    exact h.symm
  · rw [if_neg hex] at h
    rcases hc : O.createDirAll d with e | u <;> rw [hc] at h
    · simp [ctxE] at h
    · rcases hd : O.downloadTo url f with e' | u' <;> rw [hd] at h <;>
        simp [ctxE] at h
      exact h.symm

/-! ### Concrete artifacts used by witnesses -/

/-- A benign oracle set for concrete evaluations: filesystem and git
operations succeed, rendering returns the template text itself, and glob
finds nothing. -/
def oraclesId : Oracles where
  fileExists := fun _ => false
  createDirAll := fun _ => .ok ()
  downloadTo := fun _ _ => .ok ()
  gitInstall := fun _ _ _ => .ok ()
  isDirMeta := fun _ => .ok true
  renderTemplate := fun t _ => .ok t
  glob := fun _ => .ok []

/-- The remote URL of the lock.rs test suite. -/
def remoteUrlEx : Url where
  host := some "ross.macarthur.io"
  path := "/test.html"
  pathSegments := some ["test.html"]
  text := "https://ross.macarthur.io/test.html"

/-- The settings of the lock.rs test suite. -/
def settingsEx : Settings where
  version := "0.3.0"
  home := "/"
  root := "/home/test"
  config_file := "/home/test/config.toml"
  lock_file := "/home/test/config.lock"
  reinstall := false
  relock := false

/-! ### C4: lock-file reuse decision -/

/-- C4: `Sheldon::source` reuses the existing lock file (returning it with
`to_path = false`) iff no forced relock was requested, the manifest is not
newer than the lock file, the lock file parses, and its `LockedSettings`
field-equals the current `Settings`; and that equality compares exactly the
five persisted fields (in particular it ignores the `reinstall` and
`relock` flags). -/
theorem c4_reuse_iff :
    (∀ (relock : Bool) (cm lm : Nat) (parseResult relockResult : Except Fail LockedConfig)
        (s : Settings) (l : LockedConfig),
      Sheldon.sourceLocked relock cm lm parseResult relockResult s = .ok (l, false)
        ↔ relock = false ∧ newerThan cm lm = false ∧ parseResult = .ok l
            ∧ Settings.eqLocked s l.settings = true)
    ∧ (∀ (s : Settings) (ls : LockedSettings),
      Settings.eqLocked s ls = true
        ↔ s.version = ls.version ∧ s.home = ls.home ∧ s.root = ls.root
            ∧ s.config_file = ls.config_file ∧ s.lock_file = ls.lock_file)
    ∧ (∀ cm lm : Nat, newerThan cm lm = false ↔ cm ≤ lm) := by
  refine ⟨?_, ?_, ?_⟩
  · intro relock cm lm parseResult relockResult s l
    constructor
    · intro h
      unfold Sheldon.sourceLocked at h
      by_cases hcond : (relock || newerThan cm lm) = true
      · rw [if_pos hcond] at h
        exfalso
        rcases relockResult with e | l' <;> simp [Except.map] at h
      · rw [if_neg hcond] at h
        rw [Bool.or_eq_true, not_or, Bool.not_eq_true, Bool.not_eq_true] at hcond
        cases hp : parseResult with
        | error e =>
            rw [hp] at h
            exfalso
            rcases relockResult with e' | l' <;> simp [Except.map] at h
        | ok locked =>
            rw [hp] at h
            by_cases hv : locked.verify s = true
            · simp only [hv, if_true] at h
              simp at h
              rcases h with ⟨rfl, _⟩
              exact ⟨hcond.1, hcond.2, rfl, hv⟩
            · simp only [hv, if_false] at h
              exfalso
              rcases relockResult with e' | l' <;> simp [hv, Except.map] at h
    · rintro ⟨hrel, hnew, hp, hv⟩
      unfold Sheldon.sourceLocked
      simp only [hrel, hnew, Bool.or_self, Bool.false_eq_true, if_false, hp]
      rw [if_pos (show LockedConfig.verify l s = true from hv)]
  · intro s ls
    simp [Settings.eqLocked, Bool.and_eq_true, beq_iff_eq, and_assoc]
  · intro cm lm
    simp [newerThan, Nat.not_lt]

/-! ### C6: Remote plugins take the single downloaded file -/

/-- C6: for a plugin whose source is `Remote`, `Plugin::lock` returns
exactly the single downloaded file of the locked source as its filename
list; the result does not mention the oracles, so no template rendering or
glob expansion happens and neither `uses` nor the `matches` cascade can
influence it. -/
theorem c6_remote_single_file (O : Oracles) (settings : Settings) (p : Plugin)
    (src : LockedSource) (ml ap : List String) (url : Url) (f : PathBuf)
    (hs : p.source = .remote url) (hf : src.filename = some f) :
    Plugin.lock O settings p src ml ap
      = .ok { name := p.name, directory := src.directory, filenames := [f],
              apply := p.apply.getD ap } := by
  unfold Plugin.lock
  rw [hs, hf]

/-- Witness for C6: the `plugin_lock_remote` test case of lock.rs. -/
theorem c6_witness :
    Plugin.lock oraclesId settingsEx
      { name := "test", source := .remote remoteUrlEx, uses := none, apply := none }
      { directory := "/home/test/downloads/ross.macarthur.io",
        filename := some "/home/test/downloads/ross.macarthur.io/test.html" }
      [] ["hello"]
      = .ok { name := "test", directory := "/home/test/downloads/ross.macarthur.io",
              filenames := ["/home/test/downloads/ross.macarthur.io/test.html"],
              apply := ["hello"] } :=
  c6_remote_single_file oraclesId settingsEx _ _ [] ["hello"] remoteUrlEx _ rfl rfl

/-! ### C7: Remote source install layout -/

/-- C7: for a `Remote` source whose URL has a host, `Source::lock` hands the
download step the directory `<root>/downloads/<host>/<all but the last path
segment>` and the filename `<that directory>/<last segment>`, with the
literal `index` replacing an empty last segment (a URL ending in `/`); any
successful lock returns exactly that directory and filename. -/
theorem c7_remote_layout (O : Oracles) (settings : Settings) (url : Url)
    (h : String) (segs : List String) (last : String) (rest : List String)
    (hh : url.host = some h) (hsegs : url.pathSegments = some segs)
    (hsplit : splitLast? segs = some (last, rest))
    (hroot : settings.root ≠ "")
    (hhost : headIsSlash h = false ∧ h ≠ "")
    (hrest : ∀ r ∈ rest, headIsSlash r = false ∧ r ≠ "")
    (hlast : headIsSlash last = false) :
    Source.lock O settings (.remote url)
      = Source.lock_remote O
          (settings.root ++ "/downloads/" ++ h ++ slashConcat rest)
          (settings.root ++ "/downloads/" ++ h ++ slashConcat rest ++ "/"
            ++ (if last = "" then "index" else last))
          url
    ∧ ∀ ls, Source.lock O settings (.remote url) = .ok ls →
        ls = ⟨settings.root ++ "/downloads/" ++ h ++ slashConcat rest,
              some (settings.root ++ "/downloads/" ++ h ++ slashConcat rest ++ "/"
                ++ (if last = "" then "index" else last))⟩ := by
  have hD0 : pathJoin (pathJoin settings.root DOWNLOAD_DIRECTORY) h
      = settings.root ++ "/downloads/" ++ h := by
    rw [show DOWNLOAD_DIRECTORY = "downloads" from rfl,
      pathJoin_rel (by decide) (by decide) hroot,
      pathJoin_rel hhost.1 hhost.2 (append_ne_empty_left (append_ne_empty_left hroot)),
      show ("/downloads/" : String) = "/" ++ "downloads" ++ "/" from rfl]
    simp [String.append_assoc]
  have hDne : settings.root ++ "/downloads/" ++ h ≠ "" :=
    append_ne_empty_left (append_ne_empty_left hroot)
  have hD : rest.foldl pathJoin (pathJoin (pathJoin settings.root DOWNLOAD_DIRECTORY) h)
      = settings.root ++ "/downloads/" ++ h ++ slashConcat rest := by
    rw [hD0, foldl_pathJoin_slashConcat rest _ hDne hrest]
  have hbase : (if last ≠ "" then last else "index")
      = (if last = "" then "index" else last) := by
    rcases eq_or_ne last "" with hl | hl <;> simp [hl]
  have hF : pathJoin (settings.root ++ "/downloads/" ++ h ++ slashConcat rest)
        (if last = "" then "index" else last)
      = settings.root ++ "/downloads/" ++ h ++ slashConcat rest ++ "/"
          ++ (if last = "" then "index" else last) := by
    rcases eq_or_ne last "" with hl | hl
    · simp only [hl, if_pos rfl]
      exact pathJoin_rel (by decide) (by decide) (append_ne_empty_left hDne)
    · simp only [if_neg hl]
      exact pathJoin_rel hlast hl (append_ne_empty_left hDne)
  have hmain : Source.lock O settings (.remote url)
      = Source.lock_remote O
          (settings.root ++ "/downloads/" ++ h ++ slashConcat rest)
          (settings.root ++ "/downloads/" ++ h ++ slashConcat rest ++ "/"
            ++ (if last = "" then "index" else last))
          url := by
    simp only [Source.lock, hh, hsegs, hsplit, hbase, hD, hF]
  exact ⟨hmain, fun ls hls => lock_remote_ok_shape (hmain ▸ hls)⟩

/-- Witness for C7: the E4 layout example (`https://ross.macarthur.io/test.html`
under root `/home/test`), evaluated to the concrete locked source. -/
theorem c7_witness :
    Source.lock oraclesId settingsEx (.remote remoteUrlEx)
      = .ok ⟨"/home/test/downloads/ross.macarthur.io",
             some "/home/test/downloads/ross.macarthur.io/test.html"⟩ := by
  have hm := (c7_remote_layout oraclesId settingsEx remoteUrlEx "ross.macarthur.io"
    ["test.html"] "test.html" [] rfl rfl rfl (by decide) (by decide)
    (by intro r hr; cases hr) (by decide)).1
  rw [hm]
  rfl

/-! ### Glob and cascade lemmas -/

/-- The accumulator form of the match loop equals the full expansion. -/
theorem matchGlobsGo_eq (pattern : PathBuf) :
    ∀ (entries : List (Except Err PathBuf)) (acc : List PathBuf) (m : Bool),
      Plugin.matchGlobsGo pattern entries acc m
        = (globAllGo pattern entries).map fun ps => (m || !ps.isEmpty, acc ++ ps)
  | [], acc, m => by simp [Plugin.matchGlobsGo, globAllGo, Except.map]
  | .error e :: rest, acc, m => by simp [Plugin.matchGlobsGo, globAllGo, Except.map]
  | .ok p :: rest, acc, m => by
      rw [show Plugin.matchGlobsGo pattern (.ok p :: rest) acc m
          = Plugin.matchGlobsGo pattern rest (acc ++ [p]) true from rfl,
        matchGlobsGo_eq pattern rest (acc ++ [p]) true]
      cases hg : globAllGo pattern rest with
      | error e => simp [globAllGo, hg, Except.map]
      | ok ps => simp [globAllGo, hg, Except.map]

/-- `Plugin::match_globs` in terms of the full expansion of the pattern. -/
theorem match_globs_eq_globAll (O : Oracles) (pattern : PathBuf) (acc : List PathBuf) :
    Plugin.match_globs O pattern acc
      = (globAll O pattern).map fun ps => (!ps.isEmpty, acc ++ ps) := by
  unfold Plugin.match_globs globAll
  cases O.glob pattern with
  | error e => rfl
  | ok paths => simpa using matchGlobsGo_eq pattern paths acc false


/-- The `uses` loop with an accumulator is the spec's `uses` selection with
the accumulated files prepended. -/
theorem usesLoop_eq_usesSpec (O : Oracles) (data : Ctx) (dir : PathBuf) :
    ∀ (us : List String) (acc : List PathBuf),
      Plugin.usesLoop O data dir us acc
        = (usesSpec O data dir us).map fun fs => acc ++ fs
  | [], acc => by simp [Plugin.usesLoop, usesSpec, Except.map]
  | u :: rest, acc => by
      rw [Plugin.usesLoop, usesSpec]
      cases hr : O.renderTemplate u data with
      | error e => simp [ctxE, Except.map]
      | ok rendered =>
          simp only [ctxE]
          rw [match_globs_eq_globAll]
          cases hg : globAll O (pathJoin dir rendered) with
          | error e => simp [Except.map]
          | ok files =>
              by_cases hf : files.isEmpty
              · simp [hf, Except.map]
              · simp only [Except.map, hf, Bool.not_false, if_true, Bool.false_eq_true,
                  if_false]
                rw [usesLoop_eq_usesSpec O data dir rest (acc ++ files)]
                cases usesSpec O data dir rest <;>
                  simp [Except.map, List.append_assoc]

/-- The `matches` loop with an accumulator is the spec's first-wins cascade
with the accumulated files prepended. -/
theorem matchesLoop_eq_cascade (O : Oracles) (data : Ctx) (dir : PathBuf) :
    ∀ (gs : List String) (acc : List PathBuf),
      Plugin.matchesLoop O data dir gs acc
        = (matchesCascadeSpec O data dir gs).map fun fs => acc ++ fs
  | [], acc => by simp [Plugin.matchesLoop, matchesCascadeSpec, Except.map]
  | g :: rest, acc => by
      rw [Plugin.matchesLoop, matchesCascadeSpec]
      cases hr : O.renderTemplate g data with
      | error e => simp [ctxE, Except.map]
      | ok rendered =>
          simp only [ctxE]
          rw [match_globs_eq_globAll]
          cases hg : globAll O (pathJoin dir rendered) with
          | error e => simp [Except.map]
          | ok files =>
              by_cases hf : files.isEmpty
              · have hfe : files = [] := List.isEmpty_iff.mp hf
                subst hfe
                simp only [Except.map, List.isEmpty_nil, Bool.not_true, if_false,
                  Bool.false_eq_true, if_true, List.append_nil]
                exact matchesLoop_eq_cascade O data dir rest acc
              · simp [hf, Except.map]

/-- A successful selection entry decomposes into a successful render and a
successful glob. -/
theorem entryFiles_ok_inv {O : Oracles} {data : Ctx} {dir : PathBuf} {u : String}
    {fs : List PathBuf} (h : entryFiles O data dir u = .ok fs) :
    ∃ rendered, O.renderTemplate u data = .ok rendered
      ∧ globAll O (pathJoin dir rendered) = .ok fs := by
  unfold entryFiles at h
  cases hr : O.renderTemplate u data with
  | error e => rw [hr] at h; simp [ctxE] at h
  | ok rendered =>
      rw [hr] at h
      simp only [ctxE] at h
      exact ⟨rendered, rfl, h⟩

/-- When every pattern of the cascade expands to no files the cascade
returns the empty selection. -/
theorem cascade_all_empty (O : Oracles) (data : Ctx) (dir : PathBuf) :
    ∀ gs, (∀ g ∈ gs, entryFiles O data dir g = .ok []) →
      matchesCascadeSpec O data dir gs = .ok []
  | [], _ => rfl
  | g :: rest, hall => by
      have hg := hall g (List.mem_cons_self g rest)
      obtain ⟨rendered, hr, hge⟩ := entryFiles_ok_inv hg
      rw [matchesCascadeSpec, hr]
      simp only [ctxE]
      rw [hge]
      simpa using cascade_all_empty O data dir rest
        (fun x hx => hall x (List.mem_cons_of_mem _ hx))

/-- The spec's `uses` selection fails with no-files-matched iff some entry
expands to zero files, provided every render and glob succeeds. -/
theorem usesSpec_error_iff (O : Oracles) (data : Ctx) (dir : PathBuf) :
    ∀ us, (∀ u ∈ us, ∃ fs, entryFiles O data dir u = .ok fs) →
      ((∃ u ∈ us, entryFiles O data dir u = .ok [])
        ↔ ∃ r, usesSpec O data dir us = .error (.err (.noFilesMatched r)))
  | [], _ => by simp [usesSpec]
  | u :: rest, hall => by
      obtain ⟨fs, hu⟩ := hall u (List.mem_cons_self u rest)
      obtain ⟨rendered, hr, hg⟩ := entryFiles_ok_inv hu
      rw [usesSpec, hr]
      simp only [ctxE]
      rw [hg]
      have ih := usesSpec_error_iff O data dir rest
        (fun x hx => hall x (List.mem_cons_of_mem _ hx))
      by_cases hf : fs.isEmpty
      · have hfe : fs = [] := List.isEmpty_iff.mp hf
        subst hfe
        simp only [List.isEmpty_nil, if_true]
        constructor
        · intro _
          exact ⟨rendered, rfl⟩
        · intro _
          exact ⟨u, List.mem_cons_self u rest, hu⟩
      · have hne : fs ≠ [] := fun hc => hf (by simp [hc])
        simp only [hf, Bool.false_eq_true, if_false]
        constructor
        · rintro ⟨u', hu', hue⟩
          rcases List.mem_cons.mp hu' with rfl | hmem
          · rw [hu] at hue
            injection hue with h'
            exact absurd h' hne
          · obtain ⟨r, hrr⟩ := ih.mp ⟨u', hmem, hue⟩
            refine ⟨r, ?_⟩
            rw [hrr]
            rfl
        · rintro ⟨r, hrr⟩
          have hbase : usesSpec O data dir rest = .error (.err (.noFilesMatched r)) := by
            cases hs : usesSpec O data dir rest with
            | error e =>
                rw [hs] at hrr
                simp [Except.map] at hrr
                rw [hrr]
            | ok more =>
                rw [hs] at hrr
                simp [Except.map] at hrr
          obtain ⟨u', hmem, hue⟩ := ih.mpr ⟨r, hbase⟩
          exact ⟨u', List.mem_cons_of_mem _ hmem, hue⟩

/-! ### C2: first-wins matches cascade -/

/-- C2: a non-Remote plugin that omits `uses` is locked through the spec's
first-wins cascade over the global `matches` patterns — later patterns are
not consulted once one matches — and when every pattern expands to zero
files the lock still succeeds with an empty filename list.  (A Remote
plugin never reaches the cascade; that case is claim C6.) -/
theorem c2_matches_first_wins (O : Oracles) (settings : Settings) (p : Plugin)
    (src : LockedSource) (ml ap : List String)
    (hremote : ∀ url, p.source ≠ .remote url) (huses : p.uses = none) :
    (Plugin.lock O settings p src ml ap
      = (matchesCascadeSpec O (pluginCtx settings.root p.name src.directory)
          src.directory ml).map fun fns =>
            { name := p.name, directory := src.directory, filenames := fns,
              apply := p.apply.getD ap })
    ∧ ((∀ g ∈ ml, entryFiles O (pluginCtx settings.root p.name src.directory)
          src.directory g = .ok []) →
        Plugin.lock O settings p src ml ap
          = .ok { name := p.name, directory := src.directory, filenames := [],
                  apply := p.apply.getD ap }) := by
  have hmain : Plugin.lock O settings p src ml ap
      = (matchesCascadeSpec O (pluginCtx settings.root p.name src.directory)
          src.directory ml).map fun fns =>
            { name := p.name, directory := src.directory, filenames := fns,
              apply := p.apply.getD ap } := by
    cases hsrc : p.source with
    | remote url => exact absurd hsrc (hremote url)
    | git url r =>
        simp only [Plugin.lock, hsrc, huses]
        rw [matchesLoop_eq_cascade]
        cases matchesCascadeSpec O (pluginCtx settings.root p.name src.directory)
            src.directory ml <;> simp [Except.map]
    | «local» d =>
        simp only [Plugin.lock, hsrc, huses]
        rw [matchesLoop_eq_cascade]
        cases matchesCascadeSpec O (pluginCtx settings.root p.name src.directory)
            src.directory ml <;> simp [Except.map]
  refine ⟨hmain, fun hall => ?_⟩
  rw [hmain, cascade_all_empty O (pluginCtx settings.root p.name src.directory)
    src.directory ml hall]
  rfl

/-- Test oracles mirroring the lock.rs selection tests: the source directory
`/repo` holds `1.txt`, `2.txt` and `test.html`; the strict template engine
renders the templated pattern `NAME.html` to `test.html` (the plugin name is
`test`) and every other pattern to itself. -/
def oraclesGlobEx : Oracles where
  fileExists := fun _ => false
  createDirAll := fun _ => .ok ()
  downloadTo := fun _ _ => .ok ()
  gitInstall := fun _ _ _ => .ok ()
  isDirMeta := fun _ => .ok true
  renderTemplate := fun t _ => .ok (if t = "NAME.html" then "test.html" else t)
  glob := fun pat =>
    if pat = "/repo/*.txt" then .ok [.ok "/repo/1.txt", .ok "/repo/2.txt"]
    else if pat = "/repo/test.html" then .ok [.ok "/repo/test.html"]
    else .ok []

/-- Witness for C2: with `matches = [*.txt, test.html]` against `/repo`, the
first pattern wins and the filename list is exactly `1.txt, 2.txt`. -/
theorem c2_witness :
    Plugin.lock oraclesGlobEx settingsEx
      { name := "test", source := .local "/repo", uses := none, apply := none }
      { directory := "/repo", filename := none } ["*.txt", "test.html"] ["hello"]
      = .ok { name := "test", directory := "/repo",
              filenames := ["/repo/1.txt", "/repo/2.txt"], apply := ["hello"] } := by
  have h := (c2_matches_first_wins oraclesGlobEx settingsEx
    { name := "test", source := .local "/repo", uses := none, apply := none }
    { directory := "/repo", filename := none } ["*.txt", "test.html"] ["hello"]
    (by intro url hc; cases hc) rfl).1
  rw [h]
  rfl

/-! ### C3: uses selection -/

/-- C3: a non-Remote plugin with `uses` patterns is locked by processing
each entry in order — render, join with the source directory, glob, append
all matches in glob order — and, when every render and glob succeeds, the
lock fails (with no-files-matched naming the offending rendered pattern) iff
some entry expands to zero files.  (A Remote plugin ignores `uses`; that
case is claim C6.) -/
theorem c3_uses_all_entries (O : Oracles) (settings : Settings) (p : Plugin)
    (src : LockedSource) (ml ap us : List String)
    (hremote : ∀ url, p.source ≠ .remote url) (huses : p.uses = some us) :
    (Plugin.lock O settings p src ml ap
      = (usesSpec O (pluginCtx settings.root p.name src.directory)
          src.directory us).map fun fns =>
            { name := p.name, directory := src.directory, filenames := fns,
              apply := p.apply.getD ap })
    ∧ ((∀ u ∈ us, ∃ fs, entryFiles O (pluginCtx settings.root p.name src.directory)
          src.directory u = .ok fs) →
        ((∃ u ∈ us, entryFiles O (pluginCtx settings.root p.name src.directory)
            src.directory u = .ok [])
          ↔ ∃ r, Plugin.lock O settings p src ml ap
              = .error (.err (.noFilesMatched r)))) := by
  have hmain : Plugin.lock O settings p src ml ap
      = (usesSpec O (pluginCtx settings.root p.name src.directory)
          src.directory us).map fun fns =>
            { name := p.name, directory := src.directory, filenames := fns,
              apply := p.apply.getD ap } := by
    cases hsrc : p.source with
    | remote url => exact absurd hsrc (hremote url)
    | git url r =>
        simp only [Plugin.lock, hsrc, huses]
        rw [usesLoop_eq_usesSpec]
        cases usesSpec O (pluginCtx settings.root p.name src.directory)
            src.directory us <;> simp [Except.map]
    | «local» d =>
        simp only [Plugin.lock, hsrc, huses]
        rw [usesLoop_eq_usesSpec]
        cases usesSpec O (pluginCtx settings.root p.name src.directory)
            src.directory us <;> simp [Except.map]
  refine ⟨hmain, fun hall => ?_⟩
  have hiff := usesSpec_error_iff O (pluginCtx settings.root p.name src.directory)
    src.directory us hall
  rw [hmain]
  constructor
  · intro hx
    obtain ⟨r, hr⟩ := hiff.mp hx
    exact ⟨r, by rw [hr]; rfl⟩
  · rintro ⟨r, hr⟩
    apply hiff.mpr
    refine ⟨r, ?_⟩
    cases hs : usesSpec O (pluginCtx settings.root p.name src.directory)
        src.directory us with
    | error e =>
        rw [hs] at hr
        simp [Except.map] at hr
        rw [hr]
    | ok fns =>
        rw [hs] at hr
        simp [Except.map] at hr

/-- Witness for C3: with `uses = [*.txt, NAME.html]` (the second entry a
template rendering to `test.html`) the filename list is exactly
`1.txt, 2.txt, test.html` in that order. -/
theorem c3_witness :
    Plugin.lock oraclesGlobEx settingsEx
      { name := "test", source := .local "/repo",
        uses := some ["*.txt", "NAME.html"], apply := none }
      { directory := "/repo", filename := none } [] ["hello"]
      = .ok { name := "test", directory := "/repo",
              filenames := ["/repo/1.txt", "/repo/2.txt", "/repo/test.html"],
              apply := ["hello"] } := by
  have h := (c3_uses_all_entries oraclesGlobEx settingsEx
    { name := "test", source := .local "/repo",
      uses := some ["*.txt", "NAME.html"], apply := none }
    { directory := "/repo", filename := none } [] ["hello"] ["*.txt", "NAME.html"]
    (by intro url hc; cases hc) rfl).1
  rw [h]
  rfl

/-! ### C9: lock store round trip -/

/-- Elementwise decoding inverts elementwise encoding. -/
theorem decodeList_map {f : Toml → Except Fail α} {g : α → Toml}
    (hfg : ∀ x, f (g x) = .ok x) : ∀ l : List α, decodeList f (l.map g) = .ok l
  | [] => rfl
  | x :: rest => by
      rw [List.map_cons, decodeList, hfg x, decodeList_map hfg rest]

/-- Decoding a serialized string array gives the strings back. -/
theorem decodeStrList (l : List String) :
    decodeList Toml.asStr (l.map Toml.str) = .ok l :=
  @decodeList_map String Toml.asStr Toml.str (fun _ => rfl) l

/-- Decoding a serialized template gives the template back. -/
theorem template_decode_encode (t : Template) : Template.decode t.encode = .ok t := rfl

/-- Decoding the serialized templates table preserves names, bodies, flags
and order. -/
theorem decodeTemplates_map : ∀ ts : List (String × Template),
    decodeTemplates (ts.map fun nt => (nt.1, nt.2.encode)) = .ok ts
  | [] => rfl
  | (n, t) :: rest => by
      rw [List.map_cons,
        show decodeTemplates ((n, t.encode) :: rest.map fun nt => (nt.1, nt.2.encode))
            = match decodeTemplates (rest.map fun nt => (nt.1, nt.2.encode)) with
              | .error e => .error e
              | .ok ts => .ok ((n, t) :: ts) from rfl,
        decodeTemplates_map rest]

/-- Decoding a serialized locked plugin gives the plugin back. -/
theorem lockedPlugin_decode_encode (p : LockedPlugin) :
    LockedPlugin.decode p.encode = .ok p := by
  rw [show LockedPlugin.decode p.encode
      = match decodeList Toml.asStr (p.filenames.map Toml.str) with
        | .error e => .error e
        | .ok filenames =>
            match decodeList Toml.asStr (p.apply.map Toml.str) with
            | .error e => .error e
            | .ok apply =>
                .ok { name := p.name, directory := p.directory,
                      filenames := filenames, apply := apply } from rfl,
    decodeStrList p.filenames, decodeStrList p.apply]

/-- Decoding a serialized locked configuration gives it back. -/
theorem lockedConfig_decode_encode (l : LockedConfig) :
    LockedConfig.decode l.encode = .ok l := by
  rw [show LockedConfig.decode l.encode
      = match decodeTemplates (l.templates.map fun nt => (nt.1, nt.2.encode)) with
        | .error e => .error e
        | .ok templates =>
            match decodeList LockedPlugin.decode (l.plugins.map LockedPlugin.encode) with
            | .error e => .error e
            | .ok plugins =>
                .ok { settings := { version := l.settings.version,
                                    home := l.settings.home, root := l.settings.root,
                                    config_file := l.settings.config_file,
                                    lock_file := l.settings.lock_file },
                      templates := templates, plugins := plugins } from rfl,
    decodeTemplates_map l.templates,
    decodeList_map lockedPlugin_decode_encode l.plugins]

/-- C9: parsing the serialized form of any `LockedConfig` yields an equal
`LockedConfig` — the five settings fields, the templates map with order
preserved, and the plugins array with order preserved — and no `errors` key
is ever present in the serialized form (in this version of lock.rs the
locked configuration stores no errors field at all, so every `LockedConfig`
has an empty in-memory errors list). -/
theorem c9_roundtrip (l : LockedConfig) :
    LockedConfig.decode (LockedConfig.encode l) = .ok l
      ∧ "errors" ∉ (LockedConfig.encode l).topKeys := by
  refine ⟨lockedConfig_decode_encode l, ?_⟩
  rw [show (LockedConfig.encode l).topKeys
      = ["version", "home", "root", "config_file", "lock_file",
         "templates", "plugins"] from rfl]
  decide

/-! ### C8: script rendering -/

/-- Overwriting an entry of the data map supersedes the older insertion. -/
theorem ctxInsert_overwrite (c : Ctx) (k v v' : String) :
    ctxInsert (ctxInsert c k v) k v' = ctxInsert c k v' := by
  funext x
  by_cases h : x = k <;> simp [ctxInsert, h]

/-- Fragments concatenate piecewise. -/
theorem concatFrags_append :
    ∀ xs ys : List String, concatFrags (xs ++ ys) = concatFrags xs ++ concatFrags ys
  | [], ys => by simp [concatFrags]
  | x :: xs, ys => by
      simp [concatFrags, concatFrags_append xs ys, String.append_assoc]

/-- The each loop with a threaded (mutated) data map renders the same
fragments as fresh base-plus-filename contexts, appended to the script. -/
theorem sourceEachLoop_eq (R : String → Ctx → Except Err String) (name : String)
    (base : Ctx) :
    ∀ (fs : List PathBuf) (data : Ctx) (script : String),
      (∀ f, ctxInsert data "filename" f = ctxInsert base "filename" f) →
      sourceEachLoop R name data script fs
        = (renderEachFragments R name base fs).map fun frags => script ++ concatFrags frags
  | [], data, script, _ => by
      simp [sourceEachLoop, renderEachFragments, concatFrags, Except.map]
  | f :: rest, data, script, hdata => by
      rw [sourceEachLoop, renderEachFragments, hdata f]
      cases hr : R name (ctxInsert base "filename" f) with
      | error e => simp [Except.map]
      | ok frag =>
          simp only []
          rw [sourceEachLoop_eq R name base rest (ctxInsert base "filename" f)
            (script ++ frag ++ "\n")
            (fun f' => ctxInsert_overwrite base "filename" f f')]
          cases renderEachFragments R name base rest <;>
            simp [Except.map, concatFrags, String.append_assoc]

/-- The apply loop accumulates exactly the spec's per-name fragments. -/
theorem sourceApplyLoop_eq (R : String → Ctx → Except Err String)
    (templates : List (String × Template)) (root : String) (plugin : LockedPlugin) :
    ∀ (names : List String) (script : String),
      sourceApplyLoop R templates root plugin script names
        = (pluginFragments R templates root plugin names).map
            fun frags => script ++ concatFrags frags
  | [], script => by
      simp [sourceApplyLoop, pluginFragments, concatFrags, Except.map]
  | name :: rest, script => by
      rw [sourceApplyLoop, pluginFragments]
      unfold renderFragments
      cases hl : lookupTemplate templates name with
      | none => simp [Except.map]
      | some t =>
          by_cases he : t.each = true
          · simp only [he, if_true]
            rw [sourceEachLoop_eq R name (pluginCtx root plugin.name plugin.directory)
              plugin.filenames (pluginCtx root plugin.name plugin.directory) script
              (fun _ => rfl)]
            cases renderEachFragments R name (pluginCtx root plugin.name plugin.directory)
                plugin.filenames with
            | error e => simp [Except.map]
            | ok frags =>
                simp only [Except.map]
                rw [sourceApplyLoop_eq R templates root plugin rest
                  (script ++ concatFrags frags)]
                cases pluginFragments R templates root plugin rest <;>
                  simp [Except.map, concatFrags_append, String.append_assoc]
          · simp only [he, Bool.false_eq_true, if_false]
            cases hr : R name (pluginCtx root plugin.name plugin.directory) with
            | error e => simp [Except.map]
            | ok frag =>
                simp only []
                rw [sourceApplyLoop_eq R templates root plugin rest
                  (script ++ frag ++ "\n")]
                cases pluginFragments R templates root plugin rest <;>
                  simp [Except.map, concatFrags, concatFrags_append, String.append_assoc]

/-- The plugins loop accumulates exactly the spec's fragments. -/
theorem sourcePluginsLoop_eq (R : String → Ctx → Except Err String)
    (templates : List (String × Template)) (root : String) :
    ∀ (ps : List LockedPlugin) (script : String),
      sourcePluginsLoop R templates root script ps
        = (sourceSpecPlugins R templates root ps).map
            fun frags => script ++ concatFrags frags
  | [], script => by
      simp [sourcePluginsLoop, sourceSpecPlugins, concatFrags, Except.map]
  | p :: rest, script => by
      rw [sourcePluginsLoop, sourceSpecPlugins, sourceApplyLoop_eq]
      cases pluginFragments R templates root p p.apply with
      | error e => simp [Except.map]
      | ok frags =>
          simp only [Except.map]
          rw [sourcePluginsLoop_eq R templates root rest (script ++ concatFrags frags)]
          cases sourceSpecPlugins R templates root rest <;>
            simp [Except.map, concatFrags_append, String.append_assoc]

/-- C8: `LockedConfig::source` renders exactly as the spec words it — per
plugin in order, per apply name in order, one render per filename with the
base context augmented with `filename` when the template has `each`, a
single base-context render otherwise, every fragment followed by one
newline.  Both sides are functions of the locked configuration and the
template-engine oracles alone, so equal locked configurations produce
identical scripts (the claim's determinism is immediate from purity). -/
theorem c8_script_rendering (C : String → String → Except Err Unit)
    (R : String → Ctx → Except Err String) (l : LockedConfig) :
    LockedConfig.source C R l = sourceSpec C R l := by
  unfold LockedConfig.source sourceSpec
  cases compileAll C l.templates with
  | error e => rfl
  | ok u =>
      rw [sourcePluginsLoop_eq]
      cases sourceSpecPlugins R l.templates l.settings.root l.plugins <;>
        simp [Except.map]

/-! ### C10: indexing the templates map -/

/-- Compilation succeeds when the engine accepts every template. -/
theorem compileAll_ok (C : String → String → Except Err Unit)
    (hC : ∀ n v, C n v = .ok ()) :
    ∀ ts, compileAll C ts = .ok ()
  | [] => rfl
  | (n, t) :: rest => by
      rw [compileAll, hC n t.value]
      exact compileAll_ok C hC rest

/-- The each loop cannot fail when every render succeeds. -/
theorem sourceEachLoop_ok (R : String → Ctx → Except Err String)
    (hR : ∀ n d, ∃ s, R n d = .ok s) (name : String) :
    ∀ (fs : List PathBuf) (data : Ctx) (script : String),
      ∃ out, sourceEachLoop R name data script fs = .ok out
  | [], _, script => ⟨script, rfl⟩
  | f :: rest, data, script => by
      obtain ⟨s, hs⟩ := hR name (ctxInsert data "filename" f)
      rw [sourceEachLoop, hs]
      exact sourceEachLoop_ok R hR name rest _ _

/-- The apply loop succeeds when every name is a key and every render
succeeds. -/
theorem sourceApplyLoop_ok (R : String → Ctx → Except Err String)
    (hR : ∀ n d, ∃ s, R n d = .ok s) (templates : List (String × Template))
    (root : String) (plugin : LockedPlugin) :
    ∀ (names : List String) (script : String),
      (∀ n ∈ names, (lookupTemplate templates n).isSome) →
      ∃ out, sourceApplyLoop R templates root plugin script names = .ok out
  | [], script, _ => ⟨script, rfl⟩
  | name :: rest, script, hall => by
      obtain ⟨t, ht⟩ := Option.isSome_iff_exists.mp
        (hall name (List.mem_cons_self name rest))
      rw [sourceApplyLoop, ht]
      simp only []
      by_cases he : t.each = true
      · simp only [he, if_true]
        obtain ⟨out, hout⟩ := sourceEachLoop_ok R hR name plugin.filenames
          (pluginCtx root plugin.name plugin.directory) script
        rw [hout]
        exact sourceApplyLoop_ok R hR templates root plugin rest out
          (fun n hn => hall n (List.mem_cons_of_mem _ hn))
      · simp only [he, Bool.false_eq_true, if_false]
        obtain ⟨s, hs⟩ := hR name (pluginCtx root plugin.name plugin.directory)
        rw [hs]
        exact sourceApplyLoop_ok R hR templates root plugin rest (script ++ s ++ "\n")
          (fun n hn => hall n (List.mem_cons_of_mem _ hn))

/-- The apply loop panics when some name of the list is not a key, provided
every render succeeds. -/
theorem sourceApplyLoop_panic (R : String → Ctx → Except Err String)
    (hR : ∀ n d, ∃ s, R n d = .ok s) (templates : List (String × Template))
    (root : String) (plugin : LockedPlugin) :
    ∀ (names : List String) (script : String),
      (∃ n ∈ names, lookupTemplate templates n = none) →
      ∃ m, sourceApplyLoop R templates root plugin script names = .error (.panic m)
  | [], script, h => absurd h (by simp)
  | name :: rest, script, h => by
      cases hl : lookupTemplate templates name with
      | none =>
          refine ⟨"IndexMap: key not found: " ++ name, ?_⟩
          rw [sourceApplyLoop, hl]
      | some t =>
          have hrest : ∃ n ∈ rest, lookupTemplate templates n = none := by
            rcases h with ⟨n, hn, hnone⟩
            rcases List.mem_cons.mp hn with rfl | hmem
            · rw [hl] at hnone; cases hnone
            · exact ⟨n, hmem, hnone⟩
          rw [sourceApplyLoop, hl]
          simp only []
          by_cases he : t.each = true
          · simp only [he, if_true]
            obtain ⟨out, hout⟩ := sourceEachLoop_ok R hR name plugin.filenames
              (pluginCtx root plugin.name plugin.directory) script
            rw [hout]
            exact sourceApplyLoop_panic R hR templates root plugin rest out hrest
          · simp only [he, Bool.false_eq_true, if_false]
            obtain ⟨s, hs⟩ := hR name (pluginCtx root plugin.name plugin.directory)
            rw [hs]
            exact sourceApplyLoop_panic R hR templates root plugin rest
              (script ++ s ++ "\n") hrest

/-- The plugins loop panics when some plugin's apply list contains a missing
name, provided every render succeeds. -/
theorem sourcePluginsLoop_panic (R : String → Ctx → Except Err String)
    (hR : ∀ n d, ∃ s, R n d = .ok s) (templates : List (String × Template))
    (root : String) :
    ∀ (ps : List LockedPlugin) (script : String),
      (∃ p ∈ ps, ∃ n ∈ p.apply, lookupTemplate templates n = none) →
      ∃ m, sourcePluginsLoop R templates root script ps = .error (.panic m)
  | [], script, h => absurd h (by simp)
  | p :: rest, script, h => by
      by_cases hp : ∃ n ∈ p.apply, lookupTemplate templates n = none
      · obtain ⟨m, hm⟩ := sourceApplyLoop_panic R hR templates root p p.apply script hp
        refine ⟨m, ?_⟩
        rw [sourcePluginsLoop, hm]
      · have hrest : ∃ p' ∈ rest, ∃ n ∈ p'.apply, lookupTemplate templates n = none := by
          rcases h with ⟨p', hp', hn⟩
          rcases List.mem_cons.mp hp' with rfl | hmem
          · exact absurd hn hp
          · exact ⟨p', hmem, hn⟩
        have hall : ∀ n ∈ p.apply, (lookupTemplate templates n).isSome := by
          intro n hn
          cases hv : lookupTemplate templates n with
          | none => exact absurd ⟨n, hn, hv⟩ hp
          | some t => rfl
        obtain ⟨out, hout⟩ := sourceApplyLoop_ok R hR templates root p p.apply script hall
        rw [sourcePluginsLoop, hout]
        exact sourcePluginsLoop_panic R hR templates root rest out hrest

/-- A successful apply loop visited every name, so each one is a key. -/
theorem sourceApplyLoop_ok_names (R : String → Ctx → Except Err String)
    (templates : List (String × Template)) (root : String) (plugin : LockedPlugin) :
    ∀ (names : List String) (script out : String),
      sourceApplyLoop R templates root plugin script names = .ok out →
      ∀ n ∈ names, (lookupTemplate templates n).isSome
  | [], _, _, _ => by simp
  | name :: rest, script, out, h => by
      intro n hn
      rw [sourceApplyLoop] at h
      cases hl : lookupTemplate templates name with
      | none =>
          rw [hl] at h
          simp at h
      | some t =>
          rw [hl] at h
          simp only [] at h
          rcases List.mem_cons.mp hn with rfl | hmem
          · simp [hl]
          · by_cases he : t.each = true
            · simp only [he, if_true] at h
              cases hev : sourceEachLoop R name
                  (pluginCtx root plugin.name plugin.directory) script
                  plugin.filenames with
              | error e => rw [hev] at h; simp at h
              | ok out' =>
                  rw [hev] at h
                  simp only [] at h
                  exact sourceApplyLoop_ok_names R templates root plugin rest out' out
                    h n hmem
            · simp only [he, Bool.false_eq_true, if_false] at h
              cases hr : R name (pluginCtx root plugin.name plugin.directory) with
              | error e => rw [hr] at h; simp at h
              | ok frag =>
                  rw [hr] at h
                  simp only [] at h
                  exact sourceApplyLoop_ok_names R templates root plugin rest
                    (script ++ frag ++ "\n") out h n hmem

/-- A successful plugins loop visited every apply name of every plugin. -/
theorem sourcePluginsLoop_ok_names (R : String → Ctx → Except Err String)
    (templates : List (String × Template)) (root : String) :
    ∀ (ps : List LockedPlugin) (script out : String),
      sourcePluginsLoop R templates root script ps = .ok out →
      ∀ p ∈ ps, ∀ n ∈ p.apply, (lookupTemplate templates n).isSome
  | [], _, _, _ => by simp
  | p :: rest, script, out, h => by
      intro p' hp' n hn
      rw [sourcePluginsLoop] at h
      cases ha : sourceApplyLoop R templates root p script p.apply with
      | error e => rw [ha] at h; simp at h
      | ok script' =>
          rw [ha] at h
          simp only [] at h
          rcases List.mem_cons.mp hp' with rfl | hmem
          · exact sourceApplyLoop_ok_names R templates root p' p'.apply script script' ha n hn
          · exact sourcePluginsLoop_ok_names R templates root rest script' out h p' hmem n hn

/-- C10 (amended): `LockedConfig::source` indexes the templates map with each
apply-list name; when every template compiles and every render succeeds, a
plugin whose apply list contains a name that is not a key makes the
rendering panic instead of returning an error value, and in all cases a
successful (`Ok`) rendering requires every apply name of every plugin to be
a key of the templates map.  (An error raised before the offending pair is
reached — e.g. a template compilation failure — still escapes as an
ordinary `Err`, which is the one correction to the claim.) -/
theorem c10_missing_key_panics (C : String → String → Except Err Unit)
    (R : String → Ctx → Except Err String) (l : LockedConfig)
    (hC : ∀ n v, C n v = .ok ()) (hR : ∀ n d, ∃ s, R n d = .ok s) :
    ((∃ p ∈ l.plugins, ∃ n ∈ p.apply, lookupTemplate l.templates n = none) →
      ∃ m, LockedConfig.source C R l = .error (.panic m))
    ∧ (∀ s, LockedConfig.source C R l = .ok s →
        ∀ p ∈ l.plugins, ∀ n ∈ p.apply, (lookupTemplate l.templates n).isSome) := by
  constructor
  · intro hmiss
    obtain ⟨m, hm⟩ := sourcePluginsLoop_panic R hR l.templates l.settings.root
      l.plugins "" hmiss
    refine ⟨m, ?_⟩
    rw [LockedConfig.source, compileAll_ok C hC l.templates]
    exact hm
  · intro s hs
    rw [LockedConfig.source] at hs
    cases hc : compileAll C l.templates with
    | error e => rw [hc] at hs; simp at hs
    | ok u =>
        rw [hc] at hs
        simp only [] at hs
        exact sourcePluginsLoop_ok_names R l.templates l.settings.root l.plugins
          "" s hs

/-- A locked configuration whose only plugin applies a template name that is
not a key of the templates map, while the one stored template is
syntactically invalid. -/
def lcC10 : LockedConfig where
  settings := { version := "0.3.0", home := "/", root := "/r",
                config_file := "/r/plugins.toml", lock_file := "/r/plugins.lock" }
  templates := [("t", { value := "oops", each := false })]
  plugins := [{ name := "p", directory := "/d", filenames := [], apply := ["missing"] }]

/-- A template engine that rejects every registration. -/
def compileFailC10 : String → String → Except Err Unit :=
  fun _ _ => .error (.external "template syntax error")

/-- Counterexample to C10 as stated: `lcC10` has a plugin whose apply list
names a missing template, yet `LockedConfig::source` returns an ordinary
error value — the compilation failure surfaces before the indexing is
reached — rather than panicking. -/
theorem c10_counterexample :
    (∃ p ∈ lcC10.plugins, ∃ n ∈ p.apply, lookupTemplate lcC10.templates n = none)
    ∧ LockedConfig.source compileFailC10 (fun t _ => .ok t) lcC10
        = .error (.err (.context "failed to compile template t"
            (.external "template syntax error")))
    ∧ ¬ ∃ m, LockedConfig.source compileFailC10 (fun t _ => .ok t) lcC10
        = .error (.panic m) := by
  refine ⟨by decide, rfl, ?_⟩
  rintro ⟨m, hm⟩
  rw [show LockedConfig.source compileFailC10 (fun t _ => .ok t) lcC10
      = .error (.err (.context "failed to compile template t"
          (.external "template syntax error"))) from rfl] at hm
  simp at hm

/-- Witness for C10 (amended): with a compiling template map and an
always-successful renderer, the same configuration panics on the missing
key, and the missing key also rules out any `Ok` outcome. -/
theorem c10_witness :
    (∃ m, LockedConfig.source (fun _ _ => .ok ()) (fun t _ => .ok t) lcC10
      = .error (.panic m))
    ∧ ∀ s, LockedConfig.source (fun _ _ => .ok ()) (fun t _ => .ok t) lcC10 ≠ .ok s := by
  have h := c10_missing_key_panics (fun _ _ => .ok ()) (fun t _ => .ok t) lcC10
    (fun _ _ => rfl) (fun n d => ⟨n, rfl⟩)
  refine ⟨h.1 (by decide), fun s hs => ?_⟩
  have := h.2 s hs
    { name := "p", directory := "/d", filenames := [], apply := ["missing"] }
    (by simp [lcC10]) "missing" (by simp)
  simp [lcC10, lookupTemplate] at this

/-! ### C5: channel drain semantics -/

/-- Whether a channel message is a success. -/
def isOkMsg : Except Fail α → Bool
  | .ok _ => true
  | .error _ => false

/-- The payload of a success message. -/
def okPayload : Except Fail α → Option α
  | .ok a => some a
  | .error _ => none

theorem firstError_none_iff :
    ∀ l : List (Except Fail α), firstError l = none ↔ ∀ x ∈ l, isOkMsg x = true
  | [] => by simp [firstError]
  | .error e :: rest => by simp [firstError, isOkMsg]
  | .ok a :: rest => by
      simp [firstError, isOkMsg, firstError_none_iff rest]

theorem drainCollect_all_ok :
    ∀ l : List (Except Fail α), (∀ x ∈ l, isOkMsg x = true) →
      drainCollect l = (l.length, .ok (l.filterMap okPayload))
  | [], _ => rfl
  | .error e :: rest, hall => by
      simpa [isOkMsg] using hall _ (List.mem_cons_self _ _)
  | .ok a :: rest, hall => by
      rw [drainCollect,
        drainCollect_all_ok rest (fun x hx => hall x (List.mem_cons_of_mem _ hx))]
      simp [okPayload, Except.map]

theorem drainCollect_first_error :
    ∀ (l : List (Except Fail α)) (e : Fail), firstError l = some e →
      (drainCollect l).2 = .error e
        ∧ (drainCollect l).1 = (l.takeWhile isOkMsg).length + 1
  | [], e, h => by cases h
  | .error e' :: rest, e, h => by
      rw [firstError] at h
      injection h with h
      subst h
      simp [drainCollect, List.takeWhile, isOkMsg]
  | .ok a :: rest, e, h => by
      rw [firstError] at h
      obtain ⟨h2, h1⟩ := drainCollect_first_error rest e h
      simp [drainCollect, List.takeWhile, isOkMsg, h2, h1, Except.map]

theorem drainCollect_ok_inv :
    ∀ (l : List (Except Fail α)) (out : List α),
      (drainCollect l).2 = .ok out →
      out = l.filterMap okPayload ∧ ∀ x ∈ l, isOkMsg x = true
  | [], out, h => by
      refine ⟨?_, by simp⟩
      injection h with h
      exact h.symm
  | .error e :: rest, out, h => by simp [drainCollect] at h
  | .ok a :: rest, out, h => by
      rw [drainCollect] at h
      cases hr : (drainCollect rest).2 with
      | error e => rw [hr] at h; simp [Except.map] at h
      | ok more =>
          rw [hr] at h
          simp only [Except.map] at h
          obtain ⟨hmore, hall⟩ := drainCollect_ok_inv rest more hr
          injection h with h
          refine ⟨?_, ?_⟩
          · rw [← h, hmore]
            simp [okPayload]
          · intro x hx
            rcases List.mem_cons.mp hx with rfl | hmem
            · rfl
            · exact hall x hmem

/-- C5 (amended): all worker tasks run to completion, so the channel holds
exactly one message per source group; on an all-success run exactly `groups`
messages are drained and the lock succeeds; when some message is an error
the lock fails with the first error in arrival order (not manifest order),
but the drain stops there — only the messages up to and including that
first error are consumed. -/
theorem c5_first_error_wins (O : Oracles) (perm : Schedule) (settings : Settings)
    (cfg : Config) (hperm : ∀ l, (perm l).Perm l) :
    (Config.channelMessages O perm settings cfg).length
        = (groupPlugins cfg.plugins).length
    ∧ (firstError (Config.channelMessages O perm settings cfg) = none →
        (drainCollect (Config.channelMessages O perm settings cfg)).1
            = (groupPlugins cfg.plugins).length
          ∧ ∃ lc, Config.lock O perm settings cfg = .ok lc)
    ∧ (∀ e, firstError (Config.channelMessages O perm settings cfg) = some e →
        Config.lock O perm settings cfg = .error e
          ∧ (drainCollect (Config.channelMessages O perm settings cfg)).1
              = ((Config.channelMessages O perm settings cfg).takeWhile isOkMsg).length
                  + 1) := by
  have hlen : (Config.channelMessages O perm settings cfg).length
      = (groupPlugins cfg.plugins).length := by
    unfold Config.channelMessages
    rw [(hperm _).length_eq, List.length_map]
  have htake : (Config.channelMessages O perm settings cfg).take
      (groupPlugins cfg.plugins).length = Config.channelMessages O perm settings cfg := by
    rw [← hlen, List.take_length]
  refine ⟨hlen, ?_, ?_⟩
  · intro hnone
    have hall := (firstError_none_iff _).mp hnone
    have hdrain := drainCollect_all_ok _ hall
    refine ⟨by rw [hdrain, hlen], ?_⟩
    unfold Config.lock
    by_cases hcount : (groupPlugins cfg.plugins).length = 0
    · simp only [hcount, if_pos rfl]
      exact ⟨_, rfl⟩
    · simp only [hcount, if_neg hcount, htake, hdrain]
      exact ⟨_, rfl⟩
  · intro e he
    have hdrain := drainCollect_first_error _ e he
    have hne : Config.channelMessages O perm settings cfg ≠ [] := by
      intro hc
      rw [hc] at he
      cases he
    have hcount : (groupPlugins cfg.plugins).length ≠ 0 := by
      rw [← hlen]
      simpa using hne
    refine ⟨?_, hdrain.2⟩
    unfold Config.lock
    simp only [hcount, htake, hdrain.1, if_false]

/-- Two local-source plugins whose first source fails to install. -/
def cfgC5 : Config where
  matchesList := []
  apply := []
  templates := []
  plugins := [{ name := "pa", source := .local "/a", uses := none, apply := none },
              { name := "pb", source := .local "/b", uses := none, apply := none }]

/-- Oracles for which the directory `/a` is missing and everything else
succeeds. -/
def oraclesC5 : Oracles :=
  { oraclesId with
      isDirMeta := fun d => if d = "/a" then .error (.external "boom") else .ok true }

/-- Counterexample to C5 as stated: with two source groups whose first
arriving message is an error, only one message is drained from the channel,
not `groups = 2` — `collect::<Result<_>>` stops at the first error. -/
theorem c5_counterexample :
    (groupPlugins cfgC5.plugins).length = 2
    ∧ (drainCollect (Config.channelMessages oraclesC5 id settingsEx cfgC5)).1 = 1 := by
  constructor <;> rfl

/-- Witness for C5 (amended): on the same two-group run the lock fails with
the first arriving error and the drain consumed a single message. -/
theorem c5_witness :
    Config.lock oraclesC5 id settingsEx cfgC5
      = .error (.err (.context "failed to install source /a"
          (.context "failed to find directory /a" (.external "boom"))))
    ∧ (drainCollect (Config.channelMessages oraclesC5 id settingsEx cfgC5)).1 = 1 := by
  have h := (c5_first_error_wins oraclesC5 id settingsEx cfgC5
    (fun l => List.Perm.refl l)).2.2
    (.err (.context "failed to install source /a"
      (.context "failed to find directory /a" (.external "boom")))) rfl
  exact ⟨h.1, by rw [h.2]; rfl⟩

/-! ### C1: manifest order preservation -/

/-- The indexed plugins stored across all buckets of a grouping. -/
def joinVals (m : GroupList) : List (Nat × Plugin) :=
  (m.map fun g => g.2).flatten

/-- The index/name projection of a locked worker result. -/
def idxName (x : Nat × LockedPlugin) : Nat × String := (x.1, x.2.name)

/-- The index/name projection of a manifest entry. -/
def idxPName (x : Nat × Plugin) : Nat × String := (x.1, x.2.name)

/-- Inserting an entry into the grouping adds exactly that entry to the
stored plugins, up to order. -/
theorem joinVals_groupInsert :
    ∀ (m : GroupList) (src : Source) (e : Nat × Plugin),
      (joinVals (groupInsert m src e)).Perm (joinVals m ++ [e])
  | [], src, e => by simp [groupInsert, joinVals]
  | (s, ps) :: rest, src, e => by
      by_cases hs : s = src
      · subst hs
        rw [show groupInsert ((s, ps) :: rest) s e = (s, ps ++ [e]) :: rest from by
          simp [groupInsert]]
        simp only [joinVals, List.map_cons, List.flatten_cons]
        rw [List.append_assoc, List.append_assoc]
        exact List.Perm.append_left ps List.perm_append_comm
      · rw [show groupInsert ((s, ps) :: rest) src e = (s, ps) :: groupInsert rest src e
          from by simp [groupInsert, hs]]
        simp only [joinVals, List.map_cons, List.flatten_cons]
        rw [List.append_assoc]
        exact List.Perm.append_left ps (joinVals_groupInsert rest src e)

/-- Folding the grouping over a list of entries appends them all, up to
order. -/
theorem joinVals_foldl :
    ∀ (entries : List (Nat × Plugin)) (m : GroupList),
      (joinVals (entries.foldl (fun acc ie => groupInsert acc ie.2.source ie) m)).Perm
        (joinVals m ++ entries)
  | [], m => by simp
  | e :: rest, m => by
      rw [List.foldl_cons]
      have h1 := joinVals_foldl rest (groupInsert m e.2.source e)
      have h2 := (joinVals_groupInsert m e.2.source e).append_right rest
      have h3 : (joinVals m ++ [e]) ++ rest = joinVals m ++ (e :: rest) := by simp
      exact h1.trans (h3 ▸ h2)

/-- The grouping stores exactly the enumerated manifest entries, up to
order. -/
theorem joinVals_groupPlugins (ps : List Plugin) :
    (joinVals (groupPlugins ps)).Perm ps.enum := by
  simpa [joinVals] using joinVals_foldl ps.enum []

/-- `.ctx` does not change a success. -/
theorem withCtx_ok {msg : String} {r : Except Fail α} {x : α} :
    withCtx msg r = .ok x ↔ r = .ok x := by
  constructor
  · intro h
    cases r with
    | ok a => simpa [withCtx] using h
    | error e => cases e <;> simp [withCtx] at h
  · intro h
    rw [h]
    rfl

/-- `Plugin::lock` always keeps the plugin's name. -/
theorem plugin_lock_name {O : Oracles} {settings : Settings} {p : Plugin}
    {src : LockedSource} {ml ap : List String} {lp : LockedPlugin}
    (h : Plugin.lock O settings p src ml ap = .ok lp) : lp.name = p.name := by
  unfold Plugin.lock at h
  cases hsrc : p.source with
  | remote url =>
      rw [hsrc] at h
      simp only [] at h
      cases hf : src.filename with
      | none => rw [hf] at h; simp at h
      | some f =>
          rw [hf] at h
          simp only [] at h
          injection h with h
          rw [← h]
  | git url r =>
      rw [hsrc] at h
      simp only [] at h
      cases hu : p.uses with
      | some uses =>
          rw [hu] at h
          simp only [] at h
          cases hl : Plugin.usesLoop O (pluginCtx settings.root p.name src.directory)
              src.directory uses [] with
          | error e => rw [hl] at h; simp at h
          | ok filenames =>
              rw [hl] at h
              simp only [] at h
              injection h with h
              rw [← h]
      | none =>
          rw [hu] at h
          simp only [] at h
          cases hl : Plugin.matchesLoop O (pluginCtx settings.root p.name src.directory)
              src.directory ml [] with
          | error e => rw [hl] at h; simp at h
          | ok filenames =>
              rw [hl] at h
              simp only [] at h
              injection h with h
              rw [← h]
  | «local» d =>
      rw [hsrc] at h
      simp only [] at h
      cases hu : p.uses with
      | some uses =>
          rw [hu] at h
          simp only [] at h
          cases hl : Plugin.usesLoop O (pluginCtx settings.root p.name src.directory)
              src.directory uses [] with
          | error e => rw [hl] at h; simp at h
          | ok filenames =>
              rw [hl] at h
              simp only [] at h
              injection h with h
              rw [← h]
      | none =>
          rw [hu] at h
          simp only [] at h
          cases hl : Plugin.matchesLoop O (pluginCtx settings.root p.name src.directory)
              src.directory ml [] with
          | error e => rw [hl] at h; simp at h
          | ok filenames =>
              rw [hl] at h
              simp only [] at h
              injection h with h
              rw [← h]

/-- A worker's per-plugin loop keeps every manifest index and plugin name,
in order. -/
theorem lockGroupPlugins_names (O : Oracles) (settings : Settings)
    (ml ap : List String) (locked : LockedSource) :
    ∀ (g : List (Nat × Plugin)) (out : List (Nat × LockedPlugin)),
      lockGroupPlugins O settings ml ap locked g = .ok out →
      out.map idxName = g.map idxPName
  | [], out, h => by
      injection h with h
      rw [← h]
      rfl
  | (i, p) :: rest, out, h => by
      rw [lockGroupPlugins] at h
      cases hl : withCtx ("failed to install plugin " ++ p.name)
          (Plugin.lock O settings p locked ml ap) with
      | error e => rw [hl] at h; simp at h
      | ok lp =>
          rw [hl] at h
          simp only [] at h
          cases hr : lockGroupPlugins O settings ml ap locked rest with
          | error e => rw [hr] at h; simp at h
          | ok more =>
              rw [hr] at h
              simp only [] at h
              injection h with h
              rw [← h, List.map_cons, List.map_cons,
                lockGroupPlugins_names O settings ml ap locked rest more hr]
              have hname : lp.name = p.name := plugin_lock_name (withCtx_ok.mp hl)
              simp [idxName, idxPName, hname]

/-- A successful worker task keeps every manifest index and plugin name of
its group, in order. -/
theorem lockGroup_names {O : Oracles} {settings : Settings} {ml ap : List String}
    {src : Source} {g : List (Nat × Plugin)} {out : List (Nat × LockedPlugin)}
    (h : lockGroup O settings ml ap src g = .ok out) :
    out.map idxName = g.map idxPName := by
  unfold lockGroup at h
  cases hs : withCtx ("failed to install source " ++ sourceName src)
      (Source.lock O settings src) with
  | error e => rw [hs] at h; simp at h
  | ok locked =>
      rw [hs] at h
      simp only [] at h
      exact lockGroupPlugins_names O settings ml ap locked g out h

/-- When every worker succeeds, the flattened payloads carry exactly the
grouped manifest entries' indices and names. -/
theorem results_payload_names (O : Oracles) (settings : Settings)
    (ml ap : List String) :
    ∀ groups : GroupList,
      (∀ r ∈ groups.map (fun g => lockGroup O settings ml ap g.1 g.2),
        isOkMsg r = true) →
      ((((groups.map (fun g => lockGroup O settings ml ap g.1 g.2)).filterMap
          okPayload).flatten).map idxName)
        = (joinVals groups).map idxPName
  | [], _ => rfl
  | g :: rest, hall => by
      have hg := hall _ (List.mem_map_of_mem _ (List.mem_cons_self g rest))
      cases hl : lockGroup O settings ml ap g.1 g.2 with
      | error e => rw [hl] at hg; simp [isOkMsg] at hg
      | ok out =>
          rw [List.map_cons, List.filterMap_cons, hl]
          simp only [okPayload, List.flatten_cons, List.map_append]
          rw [lockGroup_names hl,
            results_payload_names O settings ml ap rest
              (fun r hr => hall r (by rw [List.map_cons]; exact List.mem_cons_of_mem _ hr))]
          simp [joinVals]

instance : IsAntisymm (Nat × String) (fun a b => a.1 < b.1) :=
  ⟨fun _ _ h h' => absurd h' (Nat.lt_asymm h)⟩

/-- The enumerated manifest entries have strictly increasing indices. -/
theorem pairwise_fst_lt_enum_map (ps : List Plugin) :
    List.Pairwise (fun a b : Nat × String => a.1 < b.1) (ps.enum.map idxPName) := by
  rw [List.pairwise_map]
  have h1 : List.Pairwise (fun a b : Nat × Plugin => a.1 < b.1) ps.enum := by
    rw [List.enum_eq_zip_range]
    have hmap : ((List.range ps.length).zip ps).map Prod.fst = List.range ps.length :=
      List.map_fst_zip _ _ (by simp)
    have h2 : List.Pairwise (· < ·) (((List.range ps.length).zip ps).map Prod.fst) := by
      rw [hmap]
      exact List.pairwise_lt_range _
    exact List.pairwise_map.mp h2
  exact h1.imp (fun h => h)

/-- C1: for every manifest, a successful `Config::lock` returns the locked
plugins name-for-name in manifest order, regardless of the channel arrival
schedule (the flattened indexed results are re-sorted ascending by manifest
index); and an empty manifest locks to an empty plugins list. -/
theorem c1_manifest_order (O : Oracles) (perm : Schedule) (settings : Settings)
    (cfg : Config) (hperm : ∀ l, (perm l).Perm l) :
    (∀ lc, Config.lock O perm settings cfg = .ok lc →
      lc.plugins.map LockedPlugin.name = cfg.plugins.map Plugin.name)
    ∧ (cfg.plugins = [] →
        Config.lock O perm settings cfg
          = .ok { settings := settings.lock, templates := cfg.templates,
                  plugins := [] }) := by
  have hmsgs : Config.channelMessages O perm settings cfg
      = perm ((groupPlugins cfg.plugins).map fun g =>
          lockGroup O settings cfg.matchesList cfg.apply g.1 g.2) := rfl
  have hlen : (Config.channelMessages O perm settings cfg).length
      = (groupPlugins cfg.plugins).length := by
    rw [hmsgs, (hperm _).length_eq, List.length_map]
  have htake : (Config.channelMessages O perm settings cfg).take
      (groupPlugins cfg.plugins).length
      = Config.channelMessages O perm settings cfg := by
    rw [← hlen, List.take_length]
  have hempty : cfg.plugins = [] →
      Config.lock O perm settings cfg
        = .ok { settings := settings.lock, templates := cfg.templates,
                plugins := [] } := by
    intro hnil
    unfold Config.lock
    rw [hnil]
    rfl
  refine ⟨?_, hempty⟩
  intro lc h
  by_cases hcount : (groupPlugins cfg.plugins).length = 0
  · have hnilg : groupPlugins cfg.plugins = [] := List.length_eq_zero.mp hcount
    have hpnil : cfg.plugins = [] := by
      have hp := joinVals_groupPlugins cfg.plugins
      rw [hnilg] at hp
      have henum : cfg.plugins.enum = [] := (hp.symm.eq_nil)
      cases hpp : cfg.plugins with
      | nil => rfl
      | cons a as => rw [hpp] at henum; simp [List.enum] at henum
    rw [hempty hpnil] at h
    injection h with h
    rw [← h, hpnil]
    rfl
  · unfold Config.lock at h
    simp only [hcount, htake, if_false] at h
    cases hd : (drainCollect (Config.channelMessages O perm settings cfg)).2 with
    | error e => rw [hd] at h; simp at h
    | ok lists =>
        rw [hd] at h
        simp only [] at h
        injection h with h
        obtain ⟨hlists, hallok⟩ := drainCollect_ok_inv _ lists hd
        have hallok' : ∀ r ∈ (groupPlugins cfg.plugins).map (fun g =>
            lockGroup O settings cfg.matchesList cfg.apply g.1 g.2), isOkMsg r = true := by
          intro r hr
          apply hallok
          rw [hmsgs]
          exact (hperm _).mem_iff.mpr hr
        have hflat : ((lists.flatten).map idxName).Perm
            (cfg.plugins.enum.map idxPName) := by
          have s1 : (lists.flatten).Perm
              ((((groupPlugins cfg.plugins).map fun g =>
                lockGroup O settings cfg.matchesList cfg.apply g.1 g.2).filterMap
                  okPayload).flatten) := by
            rw [hlists, hmsgs]
            exact ((hperm _).filterMap okPayload).flatten
          have s2 := s1.map idxName
          rw [results_payload_names O settings cfg.matchesList cfg.apply
            (groupPlugins cfg.plugins) hallok'] at s2
          exact s2.trans ((joinVals_groupPlugins cfg.plugins).map idxPName)
        have hsortperm : (sortByIdx lists.flatten).Perm lists.flatten :=
          List.perm_insertionSort idxLe _
        have hpairs : ((sortByIdx lists.flatten).map idxName).Perm
            (cfg.plugins.enum.map idxPName) :=
          (hsortperm.map idxName).trans hflat
        have hs1 : List.Sorted idxLe (sortByIdx lists.flatten) :=
          List.sorted_insertionSort idxLe _
        have hs2 : List.Pairwise (fun a b : Nat × String => a.1 ≤ b.1)
            ((sortByIdx lists.flatten).map idxName) :=
          List.pairwise_map.mpr (hs1.imp (fun h => h))
        have hnd : (((sortByIdx lists.flatten).map idxName).map Prod.fst).Nodup := by
          have hpermfst := hpairs.map Prod.fst
          have henumfst : ((cfg.plugins.enum.map idxPName).map Prod.fst).Nodup := by
            rw [List.map_map]
            have : (cfg.plugins.enum.map fun x => x.1) = List.range cfg.plugins.length := by
              rw [show (fun x : Nat × Plugin => x.1) = Prod.fst from rfl,
                List.enum_map_fst]
            rw [show (Prod.fst ∘ idxPName) = fun x : Nat × Plugin => x.1 from rfl, this]
            exact List.nodup_range _
          exact hpermfst.nodup_iff.mpr henumfst
        have hne : List.Pairwise (fun a b : Nat × String => a.1 ≠ b.1)
            ((sortByIdx lists.flatten).map idxName) :=
          List.pairwise_map.mp hnd
        have hlt : List.Pairwise (fun a b : Nat × String => a.1 < b.1)
            ((sortByIdx lists.flatten).map idxName) :=
          (hs2.and hne).imp (fun hab => Nat.lt_of_le_of_ne hab.1 hab.2)
        have heq : (sortByIdx lists.flatten).map idxName
            = cfg.plugins.enum.map idxPName :=
          List.eq_of_perm_of_sorted hpairs hlt (pairwise_fst_lt_enum_map cfg.plugins)
        rw [← h]
        have hL : (((sortByIdx lists.flatten).map fun x => x.2).map LockedPlugin.name)
            = ((sortByIdx lists.flatten).map idxName).map Prod.snd := by
          rw [List.map_map, List.map_map]
          rfl
        have hR : (cfg.plugins.enum.map idxPName).map Prod.snd
            = cfg.plugins.map Plugin.name := by
          rw [List.map_map,
            show (Prod.snd ∘ idxPName) = fun x : Nat × Plugin => x.2.name from rfl,
            show (fun x : Nat × Plugin => x.2.name)
              = Plugin.name ∘ Prod.snd from rfl,
            ← List.map_map, List.enum_map_snd]
        rw [hL, heq, hR]

/-- A two-plugin manifest over two distinct local sources. -/
def cfgC1 : Config where
  matchesList := []
  apply := ["hello"]
  templates := []
  plugins := [{ name := "a", source := .local "/a", uses := none, apply := none },
              { name := "b", source := .local "/b", uses := none, apply := none }]

/-- Witness for C1: even with the channel delivering the group results in
reverse order, the locked plugins come out in manifest order `a, b`. -/
theorem c1_witness :
    Config.lock oraclesId List.reverse settingsEx cfgC1
      = .ok { settings := settingsEx.lock, templates := [],
              plugins := [{ name := "a", directory := "/a", filenames := [],
                            apply := ["hello"] },
                          { name := "b", directory := "/b", filenames := [],
                            apply := ["hello"] }] }
    ∧ ∀ lc, Config.lock oraclesId List.reverse settingsEx cfgC1 = .ok lc →
        lc.plugins.map LockedPlugin.name = cfgC1.plugins.map Plugin.name := by
  have h := c1_manifest_order oraclesId List.reverse settingsEx cfgC1
    (fun l => List.reverse_perm l)
  exact ⟨by rfl, h.1⟩
